import Mathlib

/-!
Verification of the per-object scan orchestration of serverless-clamscan.

This file gives a shallow embedding of `src/assets/lambda/code/scan/lambda.py`:
every external interaction (object store tagging, local filesystem, subprocess
invocations, the wall clock) is made explicit.  A `World` value carries the
mutable state the Python module touches (the S3 tag store, the EFS filesystem,
the module-global `last_update_time`, and an observable effect trace); an `Env`
value supplies the outcomes of the external calls an invocation performs
(subprocess exit codes and captured output, the current time, download and
mkdir results).  Python exceptions are modelled with `Except`: a function that
can raise returns `World × Except PyErr α`, and `report_failure`, which always
raises, returns `World × PyErr`.

Status constants, control flow, message texts, and the order of state updates
follow the Python source line by line; each definition cites the lines it
embeds.
-/

namespace ClamScan

/-- Status constants, lambda.py lines 23-28. -/
def INPROGRESS : String := "IN PROGRESS"

def CLEAN : String := "CLEAN"

def DELETED : String := "DELETED"

def INFECTED : String := "INFECTED"

def ERROR : String := "ERROR"

def SKIP : String := "N/A"

/-- lambda.py line 30. -/
def MAX_BYTES : Nat := 4000000000

/-- One S3 object tag, an entry of a TagSet. -/
structure Tag where
  key : String
  value : String
deriving DecidableEq, Repr

/-- An object reference: bucket, key, and the version the API call is scoped
to (`none` for an unversioned call). -/
abbrev ObjRef := String × String × Option String

/-- What the tag store holds for one object reference: a tag set, or the
object is absent (tag reads raise NoSuchKey), or tag reads fail with some
other client error code. -/
inductive ObjTagState where
  | present (tagSet : List Tag)
  | absent
  | readError (code : String) (msg : String)
deriving DecidableEq, Repr

/-- Observable external effects of an invocation, in order. -/
inductive Effect where
  | tagRead (bucket key : String) (version : Option String)
  | tagWrite (bucket key : String) (version : Option String) (tagSet : List Tag)
  | fetch (bucket key : String) (version : Option String)
  | run (tool : String)
deriving DecidableEq, Repr

/-- The local (EFS plus /tmp) filesystem: existing directories and existing
files with their byte sizes. -/
structure FS where
  dirs : List String
  files : List (String × Nat)
deriving DecidableEq, Repr

/-- All mutable state the Python module touches. -/
structure World where
  s3 : List (ObjRef × ObjTagState)
  fs : FS
  lastUpdateTime : ℤ
  trace : List Effect
deriving DecidableEq

/-- Result of one subprocess invocation (stderr is folded into stdout by the
source, which passes stderr=STDOUT). -/
structure ProcResult where
  returncode : Int
  stdout : String
deriving DecidableEq, Repr

/-- Outcomes of the external calls one invocation performs. -/
structure Env where
  /-- time.time() at the top of freshclam_update. -/
  currentTime : ℤ
  /-- os.makedirs outcome per full path: an OSError message, or none. -/
  mkdirError : String → Option String
  /-- s3_client.download_file outcome: a ClientError message, or none. -/
  downloadError : Option String
  /-- actual byte size of the downloaded object body. -/
  objectSize : Nat
  /-- 7za exit code and output. -/
  archiveResult : ProcResult
  /-- files the 7za run writes under the payload directory: relative path and size. -/
  extracted : List (String × Nat)
  /-- freshclam exit code and output. -/
  freshclamResult : ProcResult
  /-- clamscan exit code and output. -/
  clamscanResult : ProcResult

/-- The structured failure record report_failure raises, lambda.py 460-468.
A `none` version_id models the absence of the version_id key. -/
structure FailureRecord where
  source : String
  input_bucket : String
  input_key : String
  status : String
  message : String
  version_id : Option String
deriving DecidableEq, Repr

/-- Exceptions that can escape a stage: the Exception carrying the structured
failure record (lambda.py 470), or the FileNotFoundError shutil.rmtree raises
when the directory to purge does not exist. -/
inductive PyErr where
  | failure (r : FailureRecord)
  | fileNotFound (path : String)
deriving DecidableEq, Repr

/-- The output record of the handler, lambda.py 79-137.  A `none` version_id
models the absence of the version_id key. -/
structure Summary where
  source : String
  input_bucket : String
  input_key : String
  status : String
  message : String
  version_id : Option String
deriving DecidableEq, Repr

/-- Host configuration: the environment variables and request id the handler
reads, lambda.py 103-105. -/
structure Config where
  mountPath : String
  defPath : String
  requestId : String

/-- One S3 event record, lambda.py 67-72 (the key is taken already
url-decoded; unquote_plus is the identity on the keys considered here). -/
structure Event where
  bucket : String
  key : String
  size : Nat
  versionId : Option String
deriving DecidableEq, Repr

/-! ### Tag store primitives -/

/-- Lookup in the tag store; a reference never written is absent. -/
def s3Get : List (ObjRef × ObjTagState) → ObjRef → ObjTagState
  | [], _ => .absent
  | (r, st) :: rest, q => if r = q then st else s3Get rest q

/-- Replace or append a reference in the tag store. -/
def s3Put : List (ObjRef × ObjTagState) → ObjRef → ObjTagState → List (ObjRef × ObjTagState)
  | [], q, st => [(q, st)]
  | (r, s) :: rest, q, st =>
    if r = q then (q, st) :: rest else (r, s) :: s3Put rest q st

/-- Result of s3_client.get_object_tagging: a TagSet, or a ClientError with
its error code and message. -/
inductive TagReadResult where
  | ok (tagSet : List Tag)
  | err (code : String) (msg : String)
deriving DecidableEq, Repr

/-- s3_client.get_object_tagging, optionally version-scoped. -/
def get_object_tagging (w : World) (bucket key : String) (version : Option String) :
    World × TagReadResult :=
  let w := { w with trace := w.trace ++ [.tagRead bucket key version] }
  match s3Get w.s3 (bucket, key, version) with
  | .present ts => (w, .ok ts)
  | .absent => (w, .err "NoSuchKey" "The specified key does not exist.")
  | .readError c m => (w, .err c m)

/-- s3_client.put_object_tagging, optionally version-scoped. -/
def put_object_tagging (w : World) (bucket key : String) (version : Option String)
    (ts : List Tag) : World :=
  { w with
    s3 := s3Put w.s3 (bucket, key, version) (.present ts),
    trace := w.trace ++ [.tagWrite bucket key version ts] }

/-! ### Python dict model

set_status builds `old_tags` as a dict comprehension over the TagSet and
merges via `\x7b**old_tags, **new_tags\x7d`: keys keep their first-insertion
position, a later binding overwrites the value in place, a fresh key is
appended.  A dict is modelled as an association list kept duplicate-free by
`dictInsert`. -/

def dictInsert (d : List (String × String)) (k v : String) : List (String × String) :=
  if d.any (fun p => p.1 = k) then
    d.map (fun p => if p.1 = k then (k, v) else p)
  else d ++ [(k, v)]

/-- The dict comprehension of lambda.py line 153 (later duplicates win). -/
def dictOfTagSet (ts : List Tag) : List (String × String) :=
  ts.foldl (fun d t => dictInsert d t.key t.value) []

/-- The TagSet list built at lambda.py 163-165. -/
def tagSetOfDict (d : List (String × String)) : List Tag :=
  d.map (fun p => { key := p.1, value := p.2 })

/-- Linear search of a TagSet, as in get_tag_value lines 232-236. -/
def findTag : List Tag → String → Option String
  | [], _ => none
  | t :: rest, k => if t.key = k then some t.value else findTag rest k

/-! ### set_status / get_tag_value / get_status -/

/-- set_status, lambda.py 140-173: read the existing tag set (a ClientError
is swallowed, leaving old_tags empty), merge in the scan-status key, write
the full merged set back, version-scoped iff version_id is present. -/
def set_status (w : World) (bucket key status : String)
    (version_id : Option String := none) : World :=
  let rr := get_object_tagging w bucket key version_id
  let old_tags : List (String × String) :=
    match rr.2 with
    | .ok ts => dictOfTagSet ts
    | .err _ _ => []
  let tags := dictInsert old_tags "scan-status" status
  put_object_tagging rr.1 bucket key version_id (tagSetOfDict tags)

/-- get_tag_value, lambda.py 209-236: returns the value of tag_key if
present, none otherwise; a ClientError propagates (as the error case). -/
def get_tag_value (w : World) (bucket key tag_key : String)
    (version_id : Option String := none) :
    World × Except (String × String) (Option String) :=
  match get_object_tagging w bucket key version_id with
  | (w, .ok ts) => (w, .ok (findTag ts tag_key))
  | (w, .err c m) => (w, .error (c, m))

/-- get_status, lambda.py 176-206: the scan-status tag value; NoSuchKey/404
is mapped to the synthesized DELETED, any other client error to none. -/
def get_status (w : World) (bucket key : String)
    (version_id : Option String := none) : World × Option String :=
  match get_tag_value w bucket key "scan-status" version_id with
  | (w, .ok v) => (w, v)
  | (w, .error (code, _)) =>
    if code = "NoSuchKey" ∨ code = "404" then (w, some "DELETED") else (w, none)

/-! ### Filesystem primitives -/

def fsDirExists (fs : FS) (p : String) : Bool :=
  fs.dirs.contains p

def fsFileExists (fs : FS) (p : String) : Bool :=
  fs.files.any (fun f => f.1 = p)

def fsAddDir (fs : FS) (p : String) : FS :=
  if fsDirExists fs p then fs else { fs with dirs := fs.dirs ++ [p] }

def fsAddFile (fs : FS) (p : String) (size : Nat) : FS :=
  { fs with files := (fs.files.filter (fun f => ¬ f.1 = p)) ++ [(p, size)] }

def fsRemoveFile (fs : FS) (p : String) : FS :=
  { fs with files := fs.files.filter (fun f => ¬ f.1 = p) }

/-- Python str.startswith, evaluated on the character sequences. -/
def strStartsWith (s p : String) : Bool :=
  p.data.isPrefixOf s.data

/-- Python str.endswith, evaluated on the character sequences. -/
def strEndsWith (s p : String) : Bool :=
  p.data.reverse.isPrefixOf s.data.reverse

/-- str.split on the path separator, on the character sequence. -/
def splitOnSlash : List Char → List (List Char)
  | [] => [[]]
  | ch :: rest =>
    let r := splitOnSlash rest
    if ch = '/' then [] :: r
    else
      match r with
      | [] => [[ch]]
      | hd :: tl => (ch :: hd) :: tl

/-- A path strictly under the directory `root`. -/
def underDir (root p : String) : Bool :=
  strStartsWith p (root ++ "/")

/-- Remove a directory and everything under it. -/
def fsRemoveTree (fs : FS) (root : String) : FS :=
  { dirs := fs.dirs.filter (fun d => ¬ (d = root ∨ underDir root d = true)),
    files := fs.files.filter (fun f => ¬ underDir root f.1 = true) }

/-- os.path.dirname for relative object keys: everything before the last
slash, empty when the key has no slash. -/
def dirname (p : String) : String :=
  let parts := splitOnSlash p.data
  if parts.length ≤ 1 then ""
  else String.mk (List.intercalate ['/'] parts.dropLast)

/-- The last path component. -/
def basename (p : String) : String :=
  String.mk ((splitOnSlash p.data).getLastD p.data)

/-! ### delete / report_failure -/

/-- delete, lambda.py 435-451.  With a key: remove the single file if it
exists.  Without: remove the children of download_path, then the directory
itself; shutil.rmtree raises FileNotFoundError when the directory does not
exist (glob over a missing directory yields nothing first). -/
def delete (w : World) (download_path : String)
    (input_key : Option String := none) : World × Except PyErr Unit :=
  match input_key with
  | some key =>
    let file := download_path ++ "/" ++ key
    if fsFileExists w.fs file then
      ({ w with fs := fsRemoveFile w.fs file }, .ok ())
    else (w, .ok ())
  | none =>
    if fsDirExists w.fs download_path then
      ({ w with fs := fsRemoveTree w.fs download_path }, .ok ())
    else (w, .error (.fileNotFound download_path))

/-- report_failure, lambda.py 454-470: force-write the ERROR status, purge
download_path, then raise the structured failure record.  When the purge
itself raises, that exception propagates instead and the record is never
built.  The function never returns normally, so the result is a `PyErr`. -/
def report_failure (w : World) (input_bucket input_key download_path message : String)
    (version_id : Option String := none) : World × PyErr :=
  let w := set_status w input_bucket input_key ERROR version_id
  match delete w download_path with
  | (w, .ok ()) =>
    (w, .failure
      { source := "serverless-clamscan"
        input_bucket := input_bucket
        input_key := input_key
        status := ERROR
        message := message
        version_id := version_id })
  | (w, .error e) => (w, e)

/-! ### create_dir / download_object -/

/-- create_dir, lambda.py 239-253: compute the target path from the key
directory part, create it (with parents) if missing; an OSError routes to
report_failure without a version id. -/
def create_dir (w : World) (env : Env) (input_bucket input_key download_path : String) :
    World × Except PyErr Unit :=
  let sub_dir := dirname input_key
  let full_path :=
    if 0 < sub_dir.length then download_path ++ "/" ++ sub_dir else download_path
  if fsDirExists w.fs full_path then (w, .ok ())
  else
    match env.mkdirError full_path with
    | none => ({ w with fs := fsAddDir (fsAddDir w.fs download_path) full_path }, .ok ())
    | some msg =>
      let fe := report_failure w input_bucket input_key download_path msg
      (fe.1, .error fe.2)

/-- download_object, lambda.py 256-279: fetch the object (version-scoped iff
version_id is present) to download_path/input_key; a ClientError routes to
report_failure carrying the version id. -/
def download_object (w : World) (env : Env) (input_bucket input_key download_path : String)
    (version_id : Option String := none) : World × Except PyErr Unit :=
  let w := { w with trace := w.trace ++ [.fetch input_bucket input_key version_id] }
  match env.downloadError with
  | none =>
    ({ w with fs := fsAddFile w.fs (download_path ++ "/" ++ input_key) env.objectSize },
      .ok ())
  | some msg =>
    let fe := report_failure w input_bucket input_key download_path msg version_id
    (fe.1, .error fe.2)

/-! ### expand_if_large_archive -/

/-- Python str() of a list of strings, as interpolated at lambda.py 310. -/
def pyStrList (xs : List String) : String :=
  "[" ++ String.intercalate ", " (xs.map (fun s => "\x27" ++ s ++ "\x27")) ++ "]"

/-- The ArchiveException message, lambda.py 298-300. -/
def archiveMsg (rc : Int) : String :=
  "7za exited with unexpected code: " ++ toString rc ++ "."

/-- The FileTooBigException message, lambda.py 309-312. -/
def tooBigMsg (input_key : String) (names : List String) : String :=
  "Archive " ++ input_key ++ " contains files " ++ pyStrList names ++
    " which are at greater than ClamAV max of " ++ toString MAX_BYTES ++ " bytes"

/-- The os.walk loop of lambda.py 302-307: names of the files under
download_path whose size exceeds MAX_BYTES. -/
def walkLarge (fs : FS) (download_path : String) : List String :=
  (fs.files.filter
    (fun f => underDir download_path f.1 && decide (MAX_BYTES < f.2))).map
    (fun f => basename f.1)

/-- expand_if_large_archive, lambda.py 282-322.  Only an event whose declared
byte size exceeds MAX_BYTES is expanded: 7za runs (writing its output files
under download_path), an exit code outside 0 and 1 is an ArchiveException;
then the original archive file is deleted and every file still larger than
MAX_BYTES makes a FileTooBigException listing the offending names.  Both
exceptions route to report_failure without a version id.  Any other event
leaves the state untouched. -/
def expand_if_large_archive (w : World) (env : Env)
    (input_bucket input_key download_path : String) (byte_size : Nat) :
    World × Except PyErr Unit :=
  if MAX_BYTES < byte_size then
    let w : World := { w with trace := w.trace ++ [Effect.run "7za"] }
    let w : World :=
      { w with
        fs := env.extracted.foldl
          (fun fs (e : String × Nat) => fsAddFile fs (download_path ++ "/" ++ e.1) e.2) w.fs }
    if env.archiveResult.returncode = 0 ∨ env.archiveResult.returncode = 1 then
      let wd := delete w download_path (some input_key)
      let w := wd.1
      let large_file_list := walkLarge w.fs download_path
      if large_file_list.isEmpty then (w, .ok ())
      else
        let fe := report_failure w input_bucket input_key download_path
          (tooBigMsg input_key large_file_list)
        (fe.1, .error fe.2)
    else
      let fe := report_failure w input_bucket input_key download_path
        (archiveMsg env.archiveResult.returncode)
      (fe.1, .error fe.2)
  else (w, .ok ())

/-! ### freshclam_update -/

/-- The ClamAVException message of lambda.py 361-364. -/
def freshclamMsg (rc : Int) (out : String) : String :=
  "FreshClam exited with unexpected code: " ++ toString rc ++ "\nOutput: " ++ out

/-- freshclam_update, lambda.py 328-371.  The module-global last_update_time
lives in the World.  When the elapsed time since it reaches 3600 seconds the
freshclam tool runs (after ensuring /tmp/freshclam.conf exists); a non-zero
exit is a ClamAVException routed to report_failure without a version id, and
only a zero exit advances last_update_time to the current time.  Otherwise
the refresh is skipped entirely. -/
def freshclam_update (w : World) (env : Env)
    (input_bucket input_key download_path definitions_path : String) :
    World × Except PyErr Unit :=
  let current_time := env.currentTime
  let elapsed_time := current_time - w.lastUpdateTime
  if 3600 ≤ elapsed_time then
    let w :=
      if fsFileExists w.fs "/tmp/freshclam.conf" then w
      else { w with fs := fsAddFile w.fs "/tmp/freshclam.conf" 0 }
    let w := { w with trace := w.trace ++ [.run "freshclam"] }
    if env.freshclamResult.returncode = 0 then
      ({ w with lastUpdateTime := current_time }, .ok ())
    else
      let fe := report_failure w input_bucket input_key download_path
        (freshclamMsg env.freshclamResult.returncode env.freshclamResult.stdout)
      (fe.1, .error fe.2)
  else (w, .ok ())

/-! ### scan -/

/-- The ClamAVException message of lambda.py 408-411. -/
def clamMsg (rc : Int) (out : String) : String :=
  "ClamAV exited with unexpected code: " ++ toString rc ++ ".\nOutput: " ++ out

/-- scan, lambda.py 374-432: run clamscan over download_path; exit 0 is
CLEAN, exit 1 is INFECTED, anything else is a ClamAVException routed to
report_failure (with the version id); on a verdict, the verdict is written as
the scan-status tag and returned in the summary, which carries the version id
when one is present. -/
def scan (w : World) (env : Env)
    (input_bucket input_key download_path definitions_path tmp_path : String)
    (version_id : Option String := none) : World × Except PyErr Summary :=
  let w := { w with trace := w.trace ++ [.run "clamscan"] }
  let rc := env.clamscanResult.returncode
  if rc = 0 ∨ rc = 1 then
    let status := if rc = 0 then CLEAN else INFECTED
    let w := set_status w input_bucket input_key status version_id
    (w, .ok
      { source := "serverless-clamscan"
        input_bucket := input_bucket
        input_key := input_key
        status := status
        message := env.clamscanResult.stdout
        version_id := version_id })
  else
    let fe := report_failure w input_bucket input_key download_path
      (clamMsg rc env.clamscanResult.stdout) version_id
    (fe.1, .error fe.2)

/-! ### lambda_handler -/

/-- The version id normalization of lambda.py 72-73: a literal "null"
versionId is treated as absent. -/
def normVersion (v : Option String) : Option String :=
  if v = some "null" then none else v

/-- lambda_handler, lambda.py 63-137.  Guards: a key ending in a slash, or a
current scan-status of SKIP, or an absent object (read as DELETED), each
short-circuit to the matching summary.  Otherwise: write IN PROGRESS, create
the payload, temp and definitions directories, download, conditionally
expand, conditionally refresh definitions, scan, then delete the payload and
temp directories.  Any stage exception propagates.  A present version id is
echoed into the summary. -/
def lambda_handler (cfg : Config) (env : Env) (w : World) (event : Event) :
    World × Except PyErr Summary :=
  let input_bucket := event.bucket
  let input_key := event.key
  let version_id := normVersion event.versionId
  if strEndsWith input_key "/" then
    (w, .ok
      { source := "serverless-clamscan"
        input_bucket := input_bucket
        input_key := input_key
        status := SKIP
        message := "S3 Event trigger was for a non-file object"
        version_id := version_id })
  else
    let ws := get_status w input_bucket input_key version_id
    let w := ws.1
    if ws.2 = some SKIP then
      (w, .ok
        { source := "serverless-clamscan"
          input_bucket := input_bucket
          input_key := input_key
          status := SKIP
          message := "S3 Event trigger was for a file already marked to skip"
          version_id := version_id })
    else if ws.2 = some DELETED then
      (w, .ok
        { source := "serverless-clamscan"
          input_bucket := input_bucket
          input_key := input_key
          status := DELETED
          message := "S3 Event trigger was for a file that has been deleted"
          version_id := version_id })
    else
      let mount_path := cfg.mountPath
      let definitions_path := mount_path ++ "/" ++ cfg.defPath
      let payload_path := mount_path ++ "/" ++ cfg.requestId
      let tmp_path := payload_path ++ "-tmp"
      let w := set_status w input_bucket input_key INPROGRESS version_id
      match create_dir w env input_bucket input_key payload_path with
      | (w, .error e) => (w, .error e)
      | (w, .ok ()) =>
      match create_dir w env input_bucket input_key tmp_path with
      | (w, .error e) => (w, .error e)
      | (w, .ok ()) =>
      match download_object w env input_bucket input_key payload_path version_id with
      | (w, .error e) => (w, .error e)
      | (w, .ok ()) =>
      match expand_if_large_archive w env input_bucket input_key payload_path event.size with
      | (w, .error e) => (w, .error e)
      | (w, .ok ()) =>
      match create_dir w env input_bucket input_key definitions_path with
      | (w, .error e) => (w, .error e)
      | (w, .ok ()) =>
      match freshclam_update w env input_bucket input_key payload_path definitions_path with
      | (w, .error e) => (w, .error e)
      | (w, .ok ()) =>
      match scan w env input_bucket input_key payload_path definitions_path tmp_path version_id with
      | (w, .error e) => (w, .error e)
      | (w, .ok summary) =>
      match delete w payload_path with
      | (w, .error e) => (w, .error e)
      | (w, .ok ()) =>
      match delete w tmp_path with
      | (w, .error e) => (w, .error e)
      | (w, .ok ()) =>
        (w, .ok
          (if version_id.isSome then { summary with version_id := version_id } else summary))

/-! ### Derived observations used by the theorems -/

/-- The tag set currently stored for a reference (empty when the object is
absent or unreadable). -/
def tagsOf (w : World) (r : ObjRef) : List Tag :=
  match s3Get w.s3 r with
  | .present ts => ts
  | _ => []

/-- The number of recorded invocations of one external tool. -/
def runCount (tr : List Effect) (tool : String) : Nat :=
  (tr.filter (fun e => e = Effect.run tool)).length

/-- The version an effect is scoped to (tool runs are unscoped). -/
def effectVersion : Effect → Option String
  | .tagRead _ _ v => v
  | .tagWrite _ _ v _ => v
  | .fetch _ _ v => v
  | .run _ => none

/-- w2 extends the trace of w only with version-unscoped effects. -/
def ExtendsUnversioned (w w2 : World) : Prop :=
  ∃ tr, w2.trace = w.trace ++ tr ∧ ∀ x ∈ tr, effectVersion x = none

/-- The dict set_status builds from the current store content: the existing
tag set read back (a failed read degrades to the empty dict). -/
def oldTagsDict (w : World) (r : ObjRef) : List (String × String) :=
  match s3Get w.s3 r with
  | .present ts => dictOfTagSet ts
  | _ => []

/-- Iterated updater invocations sharing one execution context: the World
(with its module-global last_update_time) flows from one invocation to the
next, each driven by its own external outcomes. -/
def updater_seq (b k dp defs : String) (w : World) : List Env → World
  | [] => w
  | env :: rest => updater_seq b k dp defs (freshclam_update w env b k dp defs).1 rest

/-- The filesystem after the 7za run has written its output files under the
payload directory. -/
def expandedFS (w : World) (env : Env) (dp : String) : FS :=
  env.extracted.foldl
    (fun fs (e : String × Nat) => fsAddFile fs (dp ++ "/" ++ e.1) e.2) w.fs

/-- The names the post-extraction walk of lambda.py 302-307 collects: files
still above MAX_BYTES after the original archive file has been deleted. -/
def oversizedNames (w : World) (env : Env) (dp k : String) : List String :=
  walkLarge (fsRemoveFile (expandedFS w env dp) (dp ++ "/" ++ k)) dp

/-! ### Concrete inputs for witnesses and counterexamples -/

def cfgW : Config := { mountPath := "/m", defPath := "d", requestId := "r1" }

/-- An environment where every external call succeeds benignly. -/
def envW : Env :=
  { currentTime := 10000
    mkdirError := fun _ => none
    downloadError := none
    objectSize := 123
    archiveResult := { returncode := 0, stdout := "" }
    extracted := []
    freshclamResult := { returncode := 0, stdout := "" }
    clamscanResult := { returncode := 0, stdout := "ok" } }

/-- A store holding one unversioned object carrying one unrelated tag, plus
the mount directory. -/
def wW : World :=
  { s3 := [(("b", "f.txt", none), .present [{ key := "owner", value := "alice" }])]
    fs := { dirs := ["/m", "/m/r1"], files := [] }
    lastUpdateTime := 0
    trace := [] }

/-- The same store scoped to version v1 of the object. -/
def wV : World :=
  { s3 := [(("b", "f.txt", some "v1"), .present [])]
    fs := { dirs := ["/m"], files := [] }
    lastUpdateTime := 0
    trace := [] }

/-- The event for the unversioned object. -/
def evW : Event := { bucket := "b", key := "f.txt", size := 123, versionId := none }

/-- The event for version v1 of the object. -/
def evV : Event := { bucket := "b", key := "f.txt", size := 123, versionId := some "v1" }

/-- An environment whose clamscan run exits 2. -/
def envScanErr : Env := { envW with clamscanResult := { returncode := 2, stdout := "boom" } }

/-- An environment whose 7za run extracts one member above MAX_BYTES. -/
def envBigMember : Env := { envW with extracted := [("big.bin", 4000000001), ("ok.bin", 5)] }

/-- The versioned event declared larger than MAX_BYTES. -/
def evBig : Event := { evV with size := 4000000005 }

/-- An environment whose second invocation comes 100 seconds later. -/
def envT2 : Env := { envW with currentTime := 10100 }

/-- The event for a pseudo-directory key. -/
def evDir : Event := { bucket := "b", key := "dir/", size := 0, versionId := none }

/-- A store in which the object is already tagged to skip. -/
def wSkip : World :=
  { wW with s3 := [(("b", "f.txt", none), .present [{ key := "scan-status", value := "N/A" }])] }

/-- A store in which the object is absent. -/
def wGone : World := { wW with s3 := [] }

/-- An environment whose freshclam run exits 1. -/
def envFreshErr : Env := { envW with freshclamResult := { returncode := 1, stdout := "bad" } }

/-- An environment in which creating the temp directory fails with an
OSError while every other external call succeeds. -/
def envMkdirErr : Env :=
  { envW with mkdirError := fun p => if p = "/m/r1-tmp" then some "Test error" else none }

/-! ## Helper lemmas -/

theorem s3Get_s3Put_same (l : List (ObjRef × ObjTagState)) (r : ObjRef) (st : ObjTagState) :
    s3Get (s3Put l r st) r = st := by
  induction l with
  | nil => simp [s3Put, s3Get]
  | cons hd tl ih =>
    by_cases h : hd.1 = r
    · simp [s3Put, h, s3Get]
    · simp [s3Put, h, s3Get, ih]

theorem dictInsert_keys_of_has (d : List (String × String)) (k v : String)
    (h : d.any (fun p => p.1 = k) = true) :
    (dictInsert d k v).map Prod.fst = d.map Prod.fst := by
  simp only [dictInsert, h, if_true, List.map_map]
  apply List.map_congr_left
  intro p _
  by_cases hpk : p.1 = k <;> simp [Function.comp, hpk]

theorem dictInsert_keys_of_not_has (d : List (String × String)) (k v : String)
    (h : d.any (fun p => p.1 = k) = false) :
    (dictInsert d k v).map Prod.fst = d.map Prod.fst ++ [k] := by
  simp [dictInsert, h]

theorem any_key_eq_false_iff (d : List (String × String)) (k : String) :
    d.any (fun p => p.1 = k) = false ↔ k ∉ d.map Prod.fst := by
  induction d with
  | nil => simp
  | cons hd tl ih =>
    simp only [List.any_cons, Bool.or_eq_false_iff, List.map_cons, List.mem_cons, ih]
    constructor
    · rintro ⟨h1, h2⟩ (h | h)
      · exact absurd h.symm (by simpa using h1)
      · exact h2 h
    · intro h
      refine ⟨by simpa using fun he => h (Or.inl he.symm), fun hm => h (Or.inr hm)⟩

theorem dictInsert_keys_nodup (d : List (String × String)) (k v : String)
    (h : (d.map Prod.fst).Nodup) : ((dictInsert d k v).map Prod.fst).Nodup := by
  cases hh : d.any (fun p => p.1 = k) with
  | true => rw [dictInsert_keys_of_has d k v hh]; exact h
  | false =>
    rw [dictInsert_keys_of_not_has d k v hh]
    have hk : k ∉ d.map Prod.fst := (any_key_eq_false_iff d k).mp hh
    simp [List.nodup_append, h, hk]

theorem dictOfTagSet_keys_nodup (ts : List Tag) : ((dictOfTagSet ts).map Prod.fst).Nodup := by
  suffices h : ∀ d : List (String × String), (d.map Prod.fst).Nodup →
      ((ts.foldl (fun d t => dictInsert d t.key t.value) d).map Prod.fst).Nodup by
    exact h [] (by simp)
  induction ts with
  | nil => intro d hd; simpa using hd
  | cons hd tl ih =>
    intro d hnd
    exact ih _ (dictInsert_keys_nodup d hd.key hd.value hnd)

theorem dictInsert_idem (d : List (String × String)) (k v : String) :
    dictInsert (dictInsert d k v) k v = dictInsert d k v := by
  cases hh : d.any (fun p => p.1 = k) with
  | true =>
    simp only [dictInsert, hh, if_true]
    have hany : (d.map (fun p => if p.1 = k then (k, v) else p)).any (fun p => p.1 = k) = true := by
      rw [List.any_eq_true] at hh ⊢
      obtain ⟨p, hp, hpk⟩ := hh
      refine ⟨(k, v), List.mem_map.mpr ⟨p, hp, ?_⟩, by simp⟩
      simp [decide_eq_true_eq.mp hpk]
    simp only [hany, if_true, List.map_map]
    apply List.map_congr_left
    intro p _
    by_cases hpk : p.1 = k <;> simp [Function.comp, hpk]
  | false =>
    have h1 : dictInsert d k v = d ++ [(k, v)] := by simp [dictInsert, hh]
    rw [h1]
    have hany : (d ++ [(k, v)]).any (fun p => p.1 = k) = true := by
      simp
    simp only [dictInsert, hany, if_true, List.map_append]
    have hmap : d.map (fun p => if p.1 = k then (k, v) else p) = d := by
      conv_rhs => rw [← List.map_id d]
      apply List.map_congr_left
      intro p hp
      have : ¬ p.1 = k := by
        rw [any_key_eq_false_iff] at hh
        intro he
        exact hh (List.mem_map.mpr ⟨p, hp, he⟩)
      simp [this]
    simp [hmap]

theorem dictInsert_mem_of_ne (d : List (String × String)) (k v : String)
    (p : String × String) (hp : p ∈ d) (hne : p.1 ≠ k) : p ∈ dictInsert d k v := by
  cases hh : d.any (fun q => q.1 = k) with
  | true =>
    simp only [dictInsert, hh, if_true]
    exact List.mem_map.mpr ⟨p, hp, by simp [hne]⟩
  | false =>
    simp only [dictInsert, hh, if_false]
    exact List.mem_append.mpr (Or.inl hp)

/-- Folding the dict comprehension over a tag set with pairwise distinct keys
reproduces the key-value pairs in order. -/
theorem dictOfTagSet_eq_of_nodup (ts : List Tag) (h : (ts.map Tag.key).Nodup) :
    dictOfTagSet ts = ts.map (fun t => (t.key, t.value)) := by
  suffices haux : ∀ d : List (String × String),
      (∀ t ∈ ts, t.key ∉ d.map Prod.fst) →
      ts.foldl (fun d t => dictInsert d t.key t.value) d =
        d ++ ts.map (fun t => (t.key, t.value)) by
    simpa using haux [] (by simp)
  induction ts with
  | nil => intro d _; simp
  | cons hd tl ih =>
    intro d hdisj
    simp only [List.map_cons, List.nodup_cons] at h
    have hins : dictInsert d hd.key hd.value = d ++ [(hd.key, hd.value)] := by
      simp only [dictInsert]
      have : d.any (fun p => p.1 = hd.key) = false := by
        rw [any_key_eq_false_iff]
        exact hdisj hd (by simp)
      simp [this]
    simp only [List.foldl_cons, hins]
    rw [ih h.2 (d ++ [(hd.key, hd.value)]) ?_]
    · simp
    · intro t ht
      simp only [List.map_append, List.mem_append]
      rintro (hmem | hmem)
      · exact hdisj t (by simp [ht]) hmem
      · simp only [List.map_cons, List.map_nil, List.mem_singleton] at hmem
        exact h.1 (hmem ▸ List.mem_map.mpr ⟨t, ht, rfl⟩)

theorem tagSetOfDict_keys (d : List (String × String)) :
    (tagSetOfDict d).map Tag.key = d.map Prod.fst := by
  simp [tagSetOfDict, List.map_map, Function.comp]

theorem dictOfTagSet_tagSetOfDict (d : List (String × String))
    (h : (d.map Prod.fst).Nodup) : dictOfTagSet (tagSetOfDict d) = d := by
  rw [dictOfTagSet_eq_of_nodup _ (by rw [tagSetOfDict_keys]; exact h)]
  simp only [tagSetOfDict, List.map_map]
  have hcomp : ((fun t : Tag => (t.key, t.value)) ∘
      fun p : String × String => ({ key := p.1, value := p.2 } : Tag)) = id := by
    funext p
    rfl
  rw [hcomp, List.map_id]

/-- Association-list lookup mirroring Python dict access. -/
def dictLookup : List (String × String) → String → Option String
  | [], _ => none
  | p :: rest, k => if p.1 = k then some p.2 else dictLookup rest k

theorem tagsOf_present {w : World} {r : ObjRef} {ts : List Tag}
    (hst : s3Get w.s3 r = .present ts) : tagsOf w r = ts := by
  simp [tagsOf, hst]

theorem tagsOf_absent {w : World} {r : ObjRef}
    (hst : s3Get w.s3 r = .absent) : tagsOf w r = [] := by
  simp [tagsOf, hst]

theorem tagsOf_readError {w : World} {r : ObjRef} {c m : String}
    (hst : s3Get w.s3 r = .readError c m) : tagsOf w r = [] := by
  simp [tagsOf, hst]

theorem oldTagsDict_present {w : World} {r : ObjRef} {ts : List Tag}
    (hst : s3Get w.s3 r = .present ts) : oldTagsDict w r = dictOfTagSet ts := by
  simp [oldTagsDict, hst]

theorem oldTagsDict_keys_nodup (w : World) (r : ObjRef) :
    ((oldTagsDict w r).map Prod.fst).Nodup := by
  unfold oldTagsDict
  cases s3Get w.s3 r with
  | present ts => exact dictOfTagSet_keys_nodup ts
  | absent => simp
  | readError c m => simp

theorem set_status_tagsOf (w : World) (b k s : String) (v : Option String) :
    tagsOf (set_status w b k s v) (b, k, v) =
      tagSetOfDict (dictInsert (oldTagsDict w (b, k, v)) "scan-status" s) := by
  cases hst : s3Get w.s3 (b, k, v) <;>
    simp [set_status, get_object_tagging, put_object_tagging, tagsOf, oldTagsDict, hst,
      s3Get_s3Put_same]

theorem set_status_fs (w : World) (b k s : String) (v : Option String) :
    (set_status w b k s v).fs = w.fs := by
  cases hst : s3Get w.s3 (b, k, v) <;>
    simp [set_status, get_object_tagging, put_object_tagging, hst]

theorem set_status_lastUpdateTime (w : World) (b k s : String) (v : Option String) :
    (set_status w b k s v).lastUpdateTime = w.lastUpdateTime := by
  cases hst : s3Get w.s3 (b, k, v) <;>
    simp [set_status, get_object_tagging, put_object_tagging, hst]

theorem set_status_s3Get (w : World) (b k s : String) (v : Option String) :
    s3Get (set_status w b k s v).s3 (b, k, v) =
      .present (tagSetOfDict (dictInsert (oldTagsDict w (b, k, v)) "scan-status" s)) := by
  cases hst : s3Get w.s3 (b, k, v) <;>
    simp [set_status, get_object_tagging, put_object_tagging, oldTagsDict, hst,
      s3Get_s3Put_same]

theorem set_status_trace (w : World) (b k s : String) (v : Option String) :
    ∃ ts, (set_status w b k s v).trace =
      w.trace ++ [Effect.tagRead b k v, Effect.tagWrite b k v ts] := by
  cases hst : s3Get w.s3 (b, k, v) with
  | present ts0 =>
    refine ⟨tagSetOfDict (dictInsert (dictOfTagSet ts0) "scan-status" s), ?_⟩
    simp [set_status, get_object_tagging, put_object_tagging, hst]
  | absent =>
    refine ⟨tagSetOfDict (dictInsert [] "scan-status" s), ?_⟩
    simp [set_status, get_object_tagging, put_object_tagging, hst]
  | readError c m =>
    refine ⟨tagSetOfDict (dictInsert [] "scan-status" s), ?_⟩
    simp [set_status, get_object_tagging, put_object_tagging, hst]

theorem findTag_tagSetOfDict (d : List (String × String)) (k : String) :
    findTag (tagSetOfDict d) k = dictLookup d k := by
  induction d with
  | nil => rfl
  | cons hd tl ih =>
    by_cases h : hd.1 = k
    · simp [tagSetOfDict, findTag, dictLookup, h]
    · simp [tagSetOfDict, findTag, dictLookup, h] at *
      exact ih

theorem dictLookup_insert_same (d : List (String × String)) (k v : String) :
    dictLookup (dictInsert d k v) k = some v := by
  cases hh : d.any (fun p => p.1 = k) with
  | true =>
    simp only [dictInsert, hh, if_true]
    induction d with
    | nil => simp at hh
    | cons hd tl ih =>
      by_cases h : hd.1 = k
      · simp [dictLookup, h]
      · simp only [List.any_cons, h, decide_False, Bool.false_or] at hh
        simp [dictLookup, h, ih hh]
  | false =>
    simp only [dictInsert, hh, if_false]
    induction d with
    | nil => simp [dictLookup]
    | cons hd tl ih =>
      by_cases h : hd.1 = k
      · simp [List.any_cons, h] at hh
      · simp only [List.any_cons, h, decide_False, Bool.false_or] at hh
        simpa [dictLookup, h] using ih hh

theorem set_status_findTag (w : World) (b k s : String) (v : Option String) :
    findTag (tagsOf (set_status w b k s v) (b, k, v)) "scan-status" = some s := by
  rw [set_status_tagsOf, findTag_tagSetOfDict, dictLookup_insert_same]

theorem delete_none_of_dir {w : World} {p : String} (h : fsDirExists w.fs p = true) :
    delete w p = ({ w with fs := fsRemoveTree w.fs p }, .ok ()) := by
  simp [delete, h]

theorem delete_none_of_not_dir {w : World} {p : String} (h : fsDirExists w.fs p = false) :
    delete w p = (w, .error (.fileNotFound p)) := by
  simp [delete, h]

theorem delete_s3 (w : World) (p : String) (ik : Option String) :
    (delete w p ik).1.s3 = w.s3 := by
  unfold delete
  cases ik with
  | some key =>
    by_cases h : fsFileExists w.fs (p ++ "/" ++ key) = true <;> simp [h]
  | none =>
    by_cases h : fsDirExists w.fs p = true <;> simp [h]

theorem tagsOf_congr_s3 {w1 w2 : World} (h : w1.s3 = w2.s3) (r : ObjRef) :
    tagsOf w1 r = tagsOf w2 r := by
  simp [tagsOf, h]

theorem report_failure_tag (w : World) (b k dp m : String) (v : Option String) :
    findTag (tagsOf (report_failure w b k dp m v).1 (b, k, v)) "scan-status" = some ERROR := by
  cases hdir : fsDirExists (set_status w b k ERROR v).fs dp with
  | true =>
    simp only [report_failure, delete_none_of_dir hdir]
    exact set_status_findTag w b k ERROR v
  | false =>
    simp only [report_failure, delete_none_of_not_dir hdir]
    exact set_status_findTag w b k ERROR v

theorem report_failure_err_of_not_dir {w : World} {b k dp m : String} {v : Option String}
    (h : fsDirExists w.fs dp = false) :
    (report_failure w b k dp m v).2 = .fileNotFound dp := by
  have hdir : fsDirExists (set_status w b k ERROR v).fs dp = false := by
    rw [set_status_fs]; exact h
  simp only [report_failure, delete_none_of_not_dir hdir]

theorem report_failure_err_of_dir {w : World} {b k dp m : String} {v : Option String}
    (h : fsDirExists w.fs dp = true) :
    (report_failure w b k dp m v).2 = .failure
      { source := "serverless-clamscan", input_bucket := b, input_key := k,
        status := ERROR, message := m, version_id := v } := by
  have hdir : fsDirExists (set_status w b k ERROR v).fs dp = true := by
    rw [set_status_fs]; exact h
  simp only [report_failure, delete_none_of_dir hdir]

theorem runCount_append (tr1 tr2 : List Effect) (tool : String) :
    runCount (tr1 ++ tr2) tool = runCount tr1 tool + runCount tr2 tool := by
  simp [runCount, List.filter_append]

theorem set_status_runCount (w : World) (b k s : String) (v : Option String) (tool : String) :
    runCount (set_status w b k s v).trace tool = runCount w.trace tool := by
  obtain ⟨ts, h⟩ := set_status_trace w b k s v
  rw [h, runCount_append]
  simp [runCount]

theorem delete_trace (w : World) (p : String) (ik : Option String) :
    (delete w p ik).1.trace = w.trace := by
  unfold delete
  cases ik with
  | some key =>
    by_cases h : fsFileExists w.fs (p ++ "/" ++ key) = true <;> simp [h]
  | none =>
    by_cases h : fsDirExists w.fs p = true <;> simp [h]

theorem delete_lastUpdateTime (w : World) (p : String) (ik : Option String) :
    (delete w p ik).1.lastUpdateTime = w.lastUpdateTime := by
  unfold delete
  cases ik with
  | some key =>
    by_cases h : fsFileExists w.fs (p ++ "/" ++ key) = true <;> simp [h]
  | none =>
    by_cases h : fsDirExists w.fs p = true <;> simp [h]

theorem report_failure_runCount (w : World) (b k dp m : String) (v : Option String)
    (tool : String) :
    runCount (report_failure w b k dp m v).1.trace tool = runCount w.trace tool := by
  cases hdir : fsDirExists (set_status w b k ERROR v).fs dp with
  | true =>
    simp only [report_failure, delete_none_of_dir hdir]
    exact set_status_runCount w b k ERROR v tool
  | false =>
    simp only [report_failure, delete_none_of_not_dir hdir]
    exact set_status_runCount w b k ERROR v tool

theorem report_failure_lastUpdateTime (w : World) (b k dp m : String) (v : Option String) :
    (report_failure w b k dp m v).1.lastUpdateTime = w.lastUpdateTime := by
  cases hdir : fsDirExists (set_status w b k ERROR v).fs dp with
  | true =>
    simp only [report_failure, delete_none_of_dir hdir]
    exact set_status_lastUpdateTime w b k ERROR v
  | false =>
    simp only [report_failure, delete_none_of_not_dir hdir]
    exact set_status_lastUpdateTime w b k ERROR v

/-- freshclam_update invokes the refresh tool exactly when the elapsed time
since the last successful refresh reaches the interval. -/
theorem freshclam_update_runCount (w : World) (env : Env) (b k dp defs : String) :
    runCount (freshclam_update w env b k dp defs).1.trace "freshclam" =
      runCount w.trace "freshclam" +
        (if 3600 ≤ env.currentTime - w.lastUpdateTime then 1 else 0) := by
  by_cases hc : 3600 ≤ env.currentTime - w.lastUpdateTime
  · rw [if_pos hc]
    by_cases hconf : fsFileExists w.fs "/tmp/freshclam.conf" = true
    · by_cases hrc : env.freshclamResult.returncode = 0
      · have htr : (freshclam_update w env b k dp defs).1.trace =
            w.trace ++ [Effect.run "freshclam"] := by
          simp [freshclam_update, hc, hconf, hrc]
        rw [htr, runCount_append]
        simp [runCount]
      · have hw : (freshclam_update w env b k dp defs).1 =
            (report_failure ({ w with trace := w.trace ++ [Effect.run "freshclam"] }) b k dp
              (freshclamMsg env.freshclamResult.returncode env.freshclamResult.stdout)).1 := by
          simp [freshclam_update, hc, hconf, hrc]
        rw [hw, report_failure_runCount]
        have : ({ w with trace := w.trace ++ [Effect.run "freshclam"] } : World).trace =
            w.trace ++ [Effect.run "freshclam"] := rfl
        rw [this, runCount_append]
        simp [runCount]
    · by_cases hrc : env.freshclamResult.returncode = 0
      · have htr : (freshclam_update w env b k dp defs).1.trace =
            w.trace ++ [Effect.run "freshclam"] := by
          simp [freshclam_update, hc, hconf, hrc]
        rw [htr, runCount_append]
        simp [runCount]
      · have hw : (freshclam_update w env b k dp defs).1 =
            (report_failure
              { w with
                  fs := fsAddFile w.fs "/tmp/freshclam.conf" 0
                  trace := w.trace ++ [Effect.run "freshclam"] }
              b k dp
              (freshclamMsg env.freshclamResult.returncode env.freshclamResult.stdout)).1 := by
          simp [freshclam_update, hc, hconf, hrc]
        rw [hw, report_failure_runCount]
        have htr2 : ({ w with
            fs := fsAddFile w.fs "/tmp/freshclam.conf" 0
            trace := w.trace ++ [Effect.run "freshclam"] } : World).trace =
            w.trace ++ [Effect.run "freshclam"] := rfl
        rw [htr2, runCount_append]
        simp [runCount]
  · rw [if_neg hc]
    have htr : (freshclam_update w env b k dp defs).1.trace = w.trace := by
      simp [freshclam_update, hc]
    rw [htr, Nat.add_zero]

/-- The last-refresh timestamp after one updater invocation. -/
theorem freshclam_update_lastUpdateTime (w : World) (env : Env) (b k dp defs : String) :
    (freshclam_update w env b k dp defs).1.lastUpdateTime =
      if 3600 ≤ env.currentTime - w.lastUpdateTime ∧ env.freshclamResult.returncode = 0
      then env.currentTime else w.lastUpdateTime := by
  by_cases hc : 3600 ≤ env.currentTime - w.lastUpdateTime
  · by_cases hrc : env.freshclamResult.returncode = 0
    · simp [freshclam_update, hc, hrc]
    · by_cases hconf : fsFileExists w.fs "/tmp/freshclam.conf" = true <;>
        simp [freshclam_update, hc, hrc, hconf, report_failure_lastUpdateTime]
  · simp [freshclam_update, hc]

theorem fsRemoveFile_of_not_exists {fs : FS} {p : String}
    (h : fsFileExists fs p = false) : fsRemoveFile fs p = fs := by
  cases fs with
  | mk dirs files =>
    simp only [fsRemoveFile, FS.mk.injEq, and_true, true_and]
    apply List.filter_eq_self.mpr
    intro a ha
    simp only [fsFileExists, List.any_eq_false] at h
    simpa using h a ha

theorem delete_some (w : World) (dp key : String) :
    delete w dp (some key) =
      ({ w with fs := fsRemoveFile w.fs (dp ++ "/" ++ key) }, .ok ()) := by
  unfold delete
  by_cases h : fsFileExists w.fs (dp ++ "/" ++ key) = true
  · simp [h]
  · have h2 : fsFileExists w.fs (dp ++ "/" ++ key) = false := by
      cases h3 : fsFileExists w.fs (dp ++ "/" ++ key) with
      | true => exact absurd h3 h
      | false => rfl
    simp only [h2, Bool.false_eq_true, if_false]
    rw [fsRemoveFile_of_not_exists h2]

theorem fsFileExists_fsRemoveFile (fs : FS) (p : String) :
    fsFileExists (fsRemoveFile fs p) p = false := by
  simp only [fsFileExists, fsRemoveFile, List.any_eq_false]
  intro a ha
  simp only [List.mem_filter] at ha
  simpa using ha.2

theorem fsFileExists_fsRemoveTree_of_false {fs : FS} {p : String}
    (h : fsFileExists fs p = false) (root : String) :
    fsFileExists (fsRemoveTree fs root) p = false := by
  simp only [fsFileExists, fsRemoveTree, List.any_eq_false] at h ⊢
  intro a ha
  exact h a (List.mem_filter.mp ha).1

theorem report_failure_fileExists_false {w : World} {p : String}
    (h : fsFileExists w.fs p = false) (b k dp m : String) (v : Option String) :
    fsFileExists (report_failure w b k dp m v).1.fs p = false := by
  cases hdir : fsDirExists (set_status w b k ERROR v).fs dp with
  | true =>
    simp only [report_failure, delete_none_of_dir hdir]
    rw [set_status_fs] at hdir ⊢
    exact fsFileExists_fsRemoveTree_of_false h dp
  | false =>
    simp only [report_failure, delete_none_of_not_dir hdir]
    rw [set_status_fs]
    exact h

theorem walkLarge_eq_nil_iff (fs : FS) (dp : String) :
    walkLarge fs dp = [] ↔
      ∀ f ∈ fs.files, underDir dp f.1 = true → f.2 ≤ MAX_BYTES := by
  simp only [walkLarge, List.map_eq_nil_iff, List.filter_eq_nil_iff]
  constructor
  · intro h f hf hu
    by_contra hgt
    exact h f hf (by simp [hu, Nat.lt_of_not_le hgt])
  · intro h f hf
    simp only [Bool.and_eq_true, decide_eq_true_eq, not_and, not_lt]
    intro hu
    exact h f hf hu

theorem foldl_fsAddFile_dirs (l : List (String × Nat)) (fs : FS) (dp : String) :
    (l.foldl (fun fs (e : String × Nat) => fsAddFile fs (dp ++ "/" ++ e.1) e.2) fs).dirs =
      fs.dirs := by
  induction l generalizing fs with
  | nil => rfl
  | cons hd tl ih => simpa [fsAddFile] using ih (fsAddFile fs (dp ++ "/" ++ hd.1) hd.2)

theorem expandedFS_dirs (w : World) (env : Env) (dp : String) :
    (expandedFS w env dp).dirs = w.fs.dirs :=
  foldl_fsAddFile_dirs env.extracted w.fs dp

theorem fsDirExists_congr {fs1 fs2 : FS} (h : fs1.dirs = fs2.dirs) (p : String) :
    fsDirExists fs1 p = fsDirExists fs2 p := by
  simp [fsDirExists, h]

theorem extendsUnversioned_refl (w : World) : ExtendsUnversioned w w :=
  ⟨[], by simp, by simp⟩

theorem extendsUnversioned_trans {w1 w2 w3 : World}
    (h12 : ExtendsUnversioned w1 w2) (h23 : ExtendsUnversioned w2 w3) :
    ExtendsUnversioned w1 w3 := by
  obtain ⟨tr1, he1, hv1⟩ := h12
  obtain ⟨tr2, he2, hv2⟩ := h23
  refine ⟨tr1 ++ tr2, by rw [he2, he1, List.append_assoc], ?_⟩
  intro x hx
  rcases List.mem_append.mp hx with h | h
  · exact hv1 x h
  · exact hv2 x h

theorem extendsUnversioned_of_trace_eq {w w2 : World} (h : w2.trace = w.trace) :
    ExtendsUnversioned w w2 :=
  ⟨[], by simp [h], by simp⟩

theorem set_status_extendsUnversioned (w : World) (b k s : String) :
    ExtendsUnversioned w (set_status w b k s none) := by
  obtain ⟨ts, h⟩ := set_status_trace w b k s none
  refine ⟨[Effect.tagRead b k none, Effect.tagWrite b k none ts], h, ?_⟩
  intro x hx
  simp only [List.mem_cons, List.not_mem_nil, or_false] at hx
  rcases hx with h1 | h1 <;> subst h1 <;> rfl

theorem report_failure_extendsUnversioned (w : World) (b k dp m : String) :
    ExtendsUnversioned w (report_failure w b k dp m).1 := by
  cases hdir : fsDirExists (set_status w b k ERROR none).fs dp with
  | true =>
    simp only [report_failure, delete_none_of_dir hdir]
    exact extendsUnversioned_trans (set_status_extendsUnversioned w b k ERROR)
      (extendsUnversioned_of_trace_eq rfl)
  | false =>
    simp only [report_failure, delete_none_of_not_dir hdir]
    exact set_status_extendsUnversioned w b k ERROR

theorem create_dir_extendsUnversioned (w : World) (env : Env) (b k dp : String) :
    ExtendsUnversioned w (create_dir w env b k dp).1 := by
  unfold create_dir
  by_cases hex : fsDirExists w.fs (if 0 < (dirname k).length then dp ++ "/" ++ dirname k
      else dp) = true
  · simp only [hex, if_true]
    exact extendsUnversioned_refl w
  · cases hmk : env.mkdirError (if 0 < (dirname k).length then dp ++ "/" ++ dirname k
        else dp) with
    | none =>
      simp only [hex, Bool.false_eq_true, if_false, hmk]
      exact extendsUnversioned_of_trace_eq rfl
    | some msg =>
      simp only [hex, Bool.false_eq_true, if_false, hmk]
      exact report_failure_extendsUnversioned w b k dp msg

theorem download_object_extendsUnversioned (w : World) (env : Env) (b k dp : String) :
    ExtendsUnversioned w (download_object w env b k dp).1 := by
  unfold download_object
  cases hdl : env.downloadError with
  | none =>
    simp only [hdl]
    exact ⟨[Effect.fetch b k none], rfl, by intro x hx; simp_all [effectVersion]⟩
  | some msg =>
    simp only [hdl]
    exact extendsUnversioned_trans
      ⟨[Effect.fetch b k none], rfl, by intro x hx; simp_all [effectVersion]⟩
      (report_failure_extendsUnversioned _ b k dp msg)

theorem expand_extendsUnversioned (w : World) (env : Env) (b k dp : String)
    (byte_size : Nat) :
    ExtendsUnversioned w (expand_if_large_archive w env b k dp byte_size).1 := by
  unfold expand_if_large_archive
  by_cases hbig : MAX_BYTES < byte_size
  · simp only [hbig, if_true]
    have hrun : ExtendsUnversioned w
        { w with
            fs := env.extracted.foldl
              (fun fs (e : String × Nat) => fsAddFile fs (dp ++ "/" ++ e.1) e.2) w.fs
            trace := w.trace ++ [Effect.run "7za"] } :=
      ⟨[Effect.run "7za"], rfl, by intro x hx; simp_all [effectVersion]⟩
    by_cases hrc : env.archiveResult.returncode = 0 ∨ env.archiveResult.returncode = 1
    · simp only [hrc, if_true]
      split
      · exact extendsUnversioned_trans hrun
          (extendsUnversioned_of_trace_eq (delete_trace _ dp (some k)))
      · exact extendsUnversioned_trans hrun
          (extendsUnversioned_trans
            (extendsUnversioned_of_trace_eq (delete_trace _ dp (some k)))
            (report_failure_extendsUnversioned _ b k dp _))
    · simp only [hrc, if_false]
      exact extendsUnversioned_trans hrun (report_failure_extendsUnversioned _ b k dp _)
  · simp only [hbig, if_false]
    exact extendsUnversioned_refl w

theorem freshclam_extendsUnversioned (w : World) (env : Env) (b k dp defs : String) :
    ExtendsUnversioned w (freshclam_update w env b k dp defs).1 := by
  unfold freshclam_update
  by_cases hc : 3600 ≤ env.currentTime - w.lastUpdateTime
  · simp only [hc, if_true]
    by_cases hconf : fsFileExists w.fs "/tmp/freshclam.conf" = true
    · simp only [hconf, if_true]
      by_cases hrc : env.freshclamResult.returncode = 0
      · simp only [hrc, if_true]
        exact ⟨[Effect.run "freshclam"], rfl, by intro x hx; simp_all [effectVersion]⟩
      · simp only [hrc, if_false]
        exact extendsUnversioned_trans
          ⟨[Effect.run "freshclam"], rfl, by intro x hx; simp_all [effectVersion]⟩
          (report_failure_extendsUnversioned _ b k dp _)
    · simp only [hconf, Bool.false_eq_true, if_false]
      by_cases hrc : env.freshclamResult.returncode = 0
      · simp only [hrc, if_true]
        exact ⟨[Effect.run "freshclam"], rfl, by intro x hx; simp_all [effectVersion]⟩
      · simp only [hrc, if_false]
        exact extendsUnversioned_trans
          ⟨[Effect.run "freshclam"], rfl, by intro x hx; simp_all [effectVersion]⟩
          (report_failure_extendsUnversioned _ b k dp _)
  · simp only [hc, if_false]
    exact extendsUnversioned_refl w

theorem scan_extendsUnversioned (w : World) (env : Env) (b k dp defs tp : String) :
    ExtendsUnversioned w (scan w env b k dp defs tp).1 := by
  unfold scan
  have hrun : ExtendsUnversioned w
      { w with trace := w.trace ++ [Effect.run "clamscan"] } :=
    ⟨[Effect.run "clamscan"], rfl, by intro x hx; simp_all [effectVersion]⟩
  by_cases hrc : env.clamscanResult.returncode = 0 ∨ env.clamscanResult.returncode = 1
  · simp only [hrc, if_true]
    exact extendsUnversioned_trans hrun (set_status_extendsUnversioned _ b k _)
  · simp only [hrc, if_false]
    exact extendsUnversioned_trans hrun (report_failure_extendsUnversioned _ b k dp _)

theorem delete_extendsUnversioned (w : World) (p : String) (ik : Option String) :
    ExtendsUnversioned w (delete w p ik).1 :=
  extendsUnversioned_of_trace_eq (delete_trace w p ik)

theorem get_status_extendsUnversioned (w : World) (b k : String) :
    ExtendsUnversioned w (get_status w b k).1 := by
  unfold get_status get_tag_value get_object_tagging
  cases hst : s3Get w.s3 (b, k, none) with
  | present ts =>
    exact ⟨[Effect.tagRead b k none], by simp [hst],
      by intro x hx; simp_all [effectVersion]⟩
  | absent =>
    exact ⟨[Effect.tagRead b k none], by simp [hst],
      by intro x hx; simp_all [effectVersion]⟩
  | readError c m =>
    refine ⟨[Effect.tagRead b k none], ?_, by intro x hx; simp_all [effectVersion]⟩
    simp only [hst]
    split <;> rfl

/-- scan started without a version id never puts one in its summary. -/
theorem scan_ok_version_none (w : World) (env : Env) (b k dp defs tp : String)
    (s : Summary) (h : (scan w env b k dp defs tp).2 = .ok s) : s.version_id = none := by
  unfold scan at h
  by_cases hrc : env.clamscanResult.returncode = 0 ∨ env.clamscanResult.returncode = 1
  · simp only [hrc, if_true, Except.ok.injEq] at h
    rw [← h]
  · simp only [hrc, if_false] at h
    exact absurd h (by simp)

/-- A handler invocation whose normalized version id is absent appends only
version-unscoped effects. -/
theorem handler_extendsUnversioned (cfg : Config) (env : Env) (w : World) (e : Event)
    (hv : normVersion e.versionId = none) :
    ExtendsUnversioned w (lambda_handler cfg env w e).1 := by
  unfold lambda_handler
  rw [hv]
  dsimp only
  split
  · exact extendsUnversioned_refl w
  · split
    · exact get_status_extendsUnversioned w e.bucket e.key
    · split
      · exact get_status_extendsUnversioned w e.bucket e.key
      · have h0 : ExtendsUnversioned w
            (set_status (get_status w e.bucket e.key).1 e.bucket e.key INPROGRESS) :=
          extendsUnversioned_trans (get_status_extendsUnversioned w e.bucket e.key)
            (set_status_extendsUnversioned _ e.bucket e.key INPROGRESS)
        split
        next w1 err heq =>
          have : w1 = (create_dir (set_status (get_status w e.bucket e.key).1
              e.bucket e.key INPROGRESS) env e.bucket e.key
              (cfg.mountPath ++ "/" ++ cfg.requestId)).1 := by rw [heq]
          rw [this]
          exact extendsUnversioned_trans h0 (create_dir_extendsUnversioned _ env e.bucket e.key _)
        next w1 heq =>
          have hw1 : ExtendsUnversioned w w1 := by
            have : w1 = (create_dir (set_status (get_status w e.bucket e.key).1
                e.bucket e.key INPROGRESS) env e.bucket e.key
                (cfg.mountPath ++ "/" ++ cfg.requestId)).1 := by rw [heq]
            rw [this]
            exact extendsUnversioned_trans h0
              (create_dir_extendsUnversioned _ env e.bucket e.key _)
          split
          next w2 err heq2 =>
            have : w2 = (create_dir w1 env e.bucket e.key
                (cfg.mountPath ++ "/" ++ cfg.requestId ++ "-tmp")).1 := by rw [heq2]
            rw [this]
            exact extendsUnversioned_trans hw1
              (create_dir_extendsUnversioned _ env e.bucket e.key _)
          next w2 heq2 =>
            have hw2 : ExtendsUnversioned w w2 := by
              have : w2 = (create_dir w1 env e.bucket e.key
                  (cfg.mountPath ++ "/" ++ cfg.requestId ++ "-tmp")).1 := by rw [heq2]
              rw [this]
              exact extendsUnversioned_trans hw1
                (create_dir_extendsUnversioned _ env e.bucket e.key _)
            split
            next w3 err heq3 =>
              have : w3 = (download_object w2 env e.bucket e.key
                  (cfg.mountPath ++ "/" ++ cfg.requestId)).1 := by rw [heq3]
              rw [this]
              exact extendsUnversioned_trans hw2
                (download_object_extendsUnversioned _ env e.bucket e.key _)
            next w3 heq3 =>
              have hw3 : ExtendsUnversioned w w3 := by
                have : w3 = (download_object w2 env e.bucket e.key
                    (cfg.mountPath ++ "/" ++ cfg.requestId)).1 := by rw [heq3]
                rw [this]
                exact extendsUnversioned_trans hw2
                  (download_object_extendsUnversioned _ env e.bucket e.key _)
              split
              next w4 err heq4 =>
                have : w4 = (expand_if_large_archive w3 env e.bucket e.key
                    (cfg.mountPath ++ "/" ++ cfg.requestId) e.size).1 := by rw [heq4]
                rw [this]
                exact extendsUnversioned_trans hw3
                  (expand_extendsUnversioned _ env e.bucket e.key _ e.size)
              next w4 heq4 =>
                have hw4 : ExtendsUnversioned w w4 := by
                  have : w4 = (expand_if_large_archive w3 env e.bucket e.key
                      (cfg.mountPath ++ "/" ++ cfg.requestId) e.size).1 := by rw [heq4]
                  rw [this]
                  exact extendsUnversioned_trans hw3
                    (expand_extendsUnversioned _ env e.bucket e.key _ e.size)
                split
                next w5 err heq5 =>
                  have : w5 = (create_dir w4 env e.bucket e.key
                      (cfg.mountPath ++ "/" ++ cfg.defPath)).1 := by rw [heq5]
                  rw [this]
                  exact extendsUnversioned_trans hw4
                    (create_dir_extendsUnversioned _ env e.bucket e.key _)
                next w5 heq5 =>
                  have hw5 : ExtendsUnversioned w w5 := by
                    have : w5 = (create_dir w4 env e.bucket e.key
                        (cfg.mountPath ++ "/" ++ cfg.defPath)).1 := by rw [heq5]
                    rw [this]
                    exact extendsUnversioned_trans hw4
                      (create_dir_extendsUnversioned _ env e.bucket e.key _)
                  split
                  next w6 err heq6 =>
                    have : w6 = (freshclam_update w5 env e.bucket e.key
                        (cfg.mountPath ++ "/" ++ cfg.requestId)
                        (cfg.mountPath ++ "/" ++ cfg.defPath)).1 := by rw [heq6]
                    rw [this]
                    exact extendsUnversioned_trans hw5
                      (freshclam_extendsUnversioned _ env e.bucket e.key _ _)
                  next w6 heq6 =>
                    have hw6 : ExtendsUnversioned w w6 := by
                      have : w6 = (freshclam_update w5 env e.bucket e.key
                          (cfg.mountPath ++ "/" ++ cfg.requestId)
                          (cfg.mountPath ++ "/" ++ cfg.defPath)).1 := by rw [heq6]
                      rw [this]
                      exact extendsUnversioned_trans hw5
                        (freshclam_extendsUnversioned _ env e.bucket e.key _ _)
                    split
                    next w7 err heq7 =>
                      have : w7 = (scan w6 env e.bucket e.key
                          (cfg.mountPath ++ "/" ++ cfg.requestId)
                          (cfg.mountPath ++ "/" ++ cfg.defPath)
                          (cfg.mountPath ++ "/" ++ cfg.requestId ++ "-tmp")).1 := by rw [heq7]
                      rw [this]
                      exact extendsUnversioned_trans hw6
                        (scan_extendsUnversioned _ env e.bucket e.key _ _ _)
                    next w7 summary heq7 =>
                      have hw7 : ExtendsUnversioned w w7 := by
                        have : w7 = (scan w6 env e.bucket e.key
                            (cfg.mountPath ++ "/" ++ cfg.requestId)
                            (cfg.mountPath ++ "/" ++ cfg.defPath)
                            (cfg.mountPath ++ "/" ++ cfg.requestId ++ "-tmp")).1 := by
                          rw [heq7]
                        rw [this]
                        exact extendsUnversioned_trans hw6
                          (scan_extendsUnversioned _ env e.bucket e.key _ _ _)
                      split
                      next w8 err heq8 =>
                        have : w8 = (delete w7
                            (cfg.mountPath ++ "/" ++ cfg.requestId)).1 := by rw [heq8]
                        rw [this]
                        exact extendsUnversioned_trans hw7 (delete_extendsUnversioned _ _ _)
                      next w8 heq8 =>
                        have hw8 : ExtendsUnversioned w w8 := by
                          have : w8 = (delete w7
                              (cfg.mountPath ++ "/" ++ cfg.requestId)).1 := by rw [heq8]
                          rw [this]
                          exact extendsUnversioned_trans hw7 (delete_extendsUnversioned _ _ _)
                        split
                        next w9 err heq9 =>
                          have : w9 = (delete w8
                              (cfg.mountPath ++ "/" ++ cfg.requestId ++ "-tmp")).1 := by
                            rw [heq9]
                          rw [this]
                          exact extendsUnversioned_trans hw8 (delete_extendsUnversioned _ _ _)
                        next w9 heq9 =>
                          have : w9 = (delete w8
                              (cfg.mountPath ++ "/" ++ cfg.requestId ++ "-tmp")).1 := by
                            rw [heq9]
                          rw [this]
                          exact extendsUnversioned_trans hw8 (delete_extendsUnversioned _ _ _)

/-- A handler invocation whose normalized version id is absent returns a
summary without a version_id key. -/
theorem handler_ok_version_none (cfg : Config) (env : Env) (w : World) (e : Event)
    (hv : normVersion e.versionId = none) :
    ∀ s, (lambda_handler cfg env w e).2 = .ok s → s.version_id = none := by
  intro s hs
  unfold lambda_handler at hs
  rw [hv] at hs
  dsimp only at hs
  split at hs
  · injection hs with h
    subst h
    rfl
  · split at hs
    · injection hs with h
      subst h
      rfl
    · split at hs
      · injection hs with h
        subst h
        rfl
      · split at hs
        · exact absurd hs (by simp)
        · split at hs
          · exact absurd hs (by simp)
          · split at hs
            · exact absurd hs (by simp)
            · split at hs
              · exact absurd hs (by simp)
              · split at hs
                · exact absurd hs (by simp)
                · split at hs
                  · exact absurd hs (by simp)
                  · split at hs
                    · exact absurd hs (by simp)
                    next w7 summary heq7 =>
                      split at hs
                      · exact absurd hs (by simp)
                      · split at hs
                        · exact absurd hs (by simp)
                        · simp only [Option.isSome_none, Bool.false_eq_true, if_false] at hs
                          injection hs with h
                          subst h
                          exact scan_ok_version_none _ env e.bucket e.key _ _ _ summary
                            (by rw [heq7])

theorem fsDirExists_eq_false_iff (fs : FS) (p : String) :
    fsDirExists fs p = false ↔ p ∉ fs.dirs := by
  simp [fsDirExists]

theorem fsDirExists_fsRemoveTree_self (fs : FS) (root : String) :
    fsDirExists (fsRemoveTree fs root) root = false := by
  rw [fsDirExists_eq_false_iff]
  intro hmem
  have h2 := (List.mem_filter.mp hmem).2
  rw [decide_eq_true_eq] at h2
  exact h2 (Or.inl rfl)

theorem fsDirExists_fsRemoveTree_of_false {fs : FS} {p : String}
    (h : fsDirExists fs p = false) (root : String) :
    fsDirExists (fsRemoveTree fs root) p = false := by
  rw [fsDirExists_eq_false_iff] at h ⊢
  intro hmem
  exact h (List.mem_filter.mp hmem).1

theorem delete_dp_gone (w : World) (p : String) :
    fsDirExists (delete w p).1.fs p = false := by
  by_cases h : fsDirExists w.fs p = true
  · rw [delete_none_of_dir h]
    exact fsDirExists_fsRemoveTree_self w.fs p
  · have h2 : fsDirExists w.fs p = false := by
      cases h3 : fsDirExists w.fs p with
      | true => exact absurd h3 h
      | false => rfl
    rw [delete_none_of_not_dir h2]
    exact h2

theorem delete_preserves_dir_gone {w : World} {p : String}
    (h : fsDirExists w.fs p = false) (q : String) :
    fsDirExists (delete w q).1.fs p = false := by
  by_cases hq : fsDirExists w.fs q = true
  · rw [delete_none_of_dir hq]
    exact fsDirExists_fsRemoveTree_of_false h q
  · have h2 : fsDirExists w.fs q = false := by
      cases h3 : fsDirExists w.fs q with
      | true => exact absurd h3 hq
      | false => rfl
    rw [delete_none_of_not_dir h2]
    exact h

theorem report_failure_dp_gone (w : World) (b k dp m : String) (v : Option String) :
    fsDirExists (report_failure w b k dp m v).1.fs dp = false := by
  cases hdir : fsDirExists (set_status w b k ERROR v).fs dp with
  | true =>
    simp only [report_failure, delete_none_of_dir hdir]
    exact fsDirExists_fsRemoveTree_self _ dp
  | false =>
    simp only [report_failure, delete_none_of_not_dir hdir]
    exact hdir

theorem create_dir_ok {env : Env} (hmk : ∀ p, env.mkdirError p = none)
    (w : World) (b k dp : String) :
    (create_dir w env b k dp).2 = .ok () := by
  unfold create_dir
  dsimp only
  split <;> split <;> simp [hmk]

theorem download_object_error_dirs (w : World) (env : Env) (b k dp : String)
    (v : Option String) (err : PyErr)
    (h : (download_object w env b k dp v).2 = .error err) :
    fsDirExists (download_object w env b k dp v).1.fs dp = false := by
  unfold download_object at h ⊢
  cases hdl : env.downloadError with
  | none => simp [hdl] at h
  | some msg =>
    simp only [hdl]
    exact report_failure_dp_gone _ b k dp msg v

theorem expand_error_dirs (w : World) (env : Env) (b k dp : String) (byte_size : Nat)
    (err : PyErr)
    (h : (expand_if_large_archive w env b k dp byte_size).2 = .error err) :
    fsDirExists (expand_if_large_archive w env b k dp byte_size).1.fs dp = false := by
  unfold expand_if_large_archive at h ⊢
  by_cases hbig : MAX_BYTES < byte_size
  · simp only [hbig, if_true] at h ⊢
    by_cases hrc : env.archiveResult.returncode = 0 ∨ env.archiveResult.returncode = 1
    · simp only [hrc, if_true] at h ⊢
      split at h
      · simp at h
      · split
        · simp_all
        · exact report_failure_dp_gone _ b k dp _ none
    · simp only [hrc, if_false] at h ⊢
      exact report_failure_dp_gone _ b k dp _ none
  · simp [hbig] at h

theorem freshclam_error_dirs (w : World) (env : Env) (b k dp defs : String) (err : PyErr)
    (h : (freshclam_update w env b k dp defs).2 = .error err) :
    fsDirExists (freshclam_update w env b k dp defs).1.fs dp = false := by
  unfold freshclam_update at h ⊢
  by_cases hc : 3600 ≤ env.currentTime - w.lastUpdateTime
  · simp only [hc, if_true] at h ⊢
    by_cases hrc : env.freshclamResult.returncode = 0
    · simp [hrc] at h
    · simp only [hrc, if_false] at h ⊢
      exact report_failure_dp_gone _ b k dp _ none
  · simp [hc] at h

theorem scan_error_dirs (w : World) (env : Env) (b k dp defs tp : String)
    (v : Option String) (err : PyErr)
    (h : (scan w env b k dp defs tp v).2 = .error err) :
    fsDirExists (scan w env b k dp defs tp v).1.fs dp = false := by
  unfold scan at h ⊢
  by_cases hrc : env.clamscanResult.returncode = 0 ∨ env.clamscanResult.returncode = 1
  · simp [hrc] at h
  · simp only [hrc, if_false] at h ⊢
    exact report_failure_dp_gone _ b k dp _ v

/-- A present version id is echoed into the report_failure record. -/
theorem report_failure_version_none {w : World} {b k dp m : String} {r : FailureRecord}
    (h : (report_failure w b k dp m).2 = .failure r) : r.version_id = none := by
  cases hdir : fsDirExists (set_status w b k ERROR none).fs dp with
  | true =>
    rw [report_failure_err_of_dir (by rw [← set_status_fs w b k ERROR none]; exact hdir)] at h
    injection h with h2
    rw [← h2]
  | false =>
    rw [report_failure_err_of_not_dir
      (by rw [← set_status_fs w b k ERROR none]; exact hdir)] at h
    exact absurd h (by simp)

/-! ## Claim theorems -/

/-- C2: the status-tag write is a read-merge-write that is idempotent: for
every object reference and status, writing the same status twice leaves the
tag set value of the scan-status key unchanged (the whole written set
converges) and produces no duplicate keys, and any tag other than
scan-status already present on the object is preserved in the written
set. -/
theorem set_status_idempotent_merge (w : World) (b k s : String) (v : Option String) :
    tagsOf (set_status (set_status w b k s v) b k s v) (b, k, v) =
        tagsOf (set_status w b k s v) (b, k, v) ∧
    findTag (tagsOf (set_status w b k s v) (b, k, v)) "scan-status" = some s ∧
    ((tagsOf (set_status w b k s v) (b, k, v)).map Tag.key).Nodup ∧
    (((tagsOf w (b, k, v)).map Tag.key).Nodup →
      ∀ t ∈ tagsOf w (b, k, v), t.key ≠ "scan-status" →
        t ∈ tagsOf (set_status w b k s v) (b, k, v)) := by
  have hD : ((oldTagsDict w (b, k, v)).map Prod.fst).Nodup := oldTagsDict_keys_nodup w _
  have hIns : ((dictInsert (oldTagsDict w (b, k, v)) "scan-status" s).map Prod.fst).Nodup :=
    dictInsert_keys_nodup _ _ _ hD
  have h1 : tagsOf (set_status w b k s v) (b, k, v) =
      tagSetOfDict (dictInsert (oldTagsDict w (b, k, v)) "scan-status" s) :=
    set_status_tagsOf w b k s v
  have hOld1 : oldTagsDict (set_status w b k s v) (b, k, v) =
      dictInsert (oldTagsDict w (b, k, v)) "scan-status" s := by
    unfold oldTagsDict
    rw [set_status_s3Get]
    exact dictOfTagSet_tagSetOfDict _ hIns
  refine ⟨?_, ?_, ?_, ?_⟩
  · rw [set_status_tagsOf, hOld1, dictInsert_idem, h1]
  · rw [h1, findTag_tagSetOfDict, dictLookup_insert_same]
  · rw [h1, tagSetOfDict_keys]
    exact hIns
  · intro hnd t ht hne
    rw [h1]
    have hmemD : (t.key, t.value) ∈ oldTagsDict w (b, k, v) := by
      cases hst : s3Get w.s3 (b, k, v) with
      | present ts =>
        rw [tagsOf_present hst] at ht hnd
        rw [oldTagsDict_present hst, dictOfTagSet_eq_of_nodup ts hnd]
        exact List.mem_map.mpr ⟨t, ht, rfl⟩
      | absent =>
        rw [tagsOf_absent hst] at ht
        simp at ht
      | readError c m =>
        rw [tagsOf_readError hst] at ht
        simp at ht
    have hmemIns : (t.key, t.value) ∈ dictInsert (oldTagsDict w (b, k, v)) "scan-status" s :=
      dictInsert_mem_of_ne _ _ _ _ hmemD hne
    have hmemTs :
        ({ key := t.key, value := t.value } : Tag) ∈
          tagSetOfDict (dictInsert (oldTagsDict w (b, k, v)) "scan-status" s) :=
      List.mem_map.mpr ⟨(t.key, t.value), hmemIns, rfl⟩
    cases t
    exact hmemTs

/-- C1: engine exit code 0 yields status CLEAN and exit code 1 yields
INFECTED, with the verdict (not the raw exit code) written as the final
scan-status tag and returned in the output record; any other exit code
raises the fatal engine error carrying the captured output (the ERROR tag is
still forced); a run that returns without a fatal error leaves the tag at
CLEAN or INFECTED, never at IN PROGRESS. -/
theorem scan_exit_code_contract (w : World) (env : Env)
    (b k dp defs tp : String) (v : Option String) :
    (env.clamscanResult.returncode = 0 →
      (scan w env b k dp defs tp v).2 = .ok
        { source := "serverless-clamscan", input_bucket := b, input_key := k,
          status := CLEAN, message := env.clamscanResult.stdout, version_id := v } ∧
      findTag (tagsOf (scan w env b k dp defs tp v).1 (b, k, v)) "scan-status" = some CLEAN) ∧
    (env.clamscanResult.returncode = 1 →
      (scan w env b k dp defs tp v).2 = .ok
        { source := "serverless-clamscan", input_bucket := b, input_key := k,
          status := INFECTED, message := env.clamscanResult.stdout, version_id := v } ∧
      findTag (tagsOf (scan w env b k dp defs tp v).1 (b, k, v)) "scan-status" = some INFECTED) ∧
    (env.clamscanResult.returncode ≠ 0 → env.clamscanResult.returncode ≠ 1 →
      findTag (tagsOf (scan w env b k dp defs tp v).1 (b, k, v)) "scan-status" = some ERROR ∧
      (fsDirExists w.fs dp = true →
        (scan w env b k dp defs tp v).2 = .error (.failure
          { source := "serverless-clamscan", input_bucket := b, input_key := k,
            status := ERROR,
            message := clamMsg env.clamscanResult.returncode env.clamscanResult.stdout,
            version_id := v }))) ∧
    (∀ s, (scan w env b k dp defs tp v).2 = .ok s →
      (s.status = CLEAN ∨ s.status = INFECTED) ∧
      findTag (tagsOf (scan w env b k dp defs tp v).1 (b, k, v)) "scan-status" = some s.status ∧
      s.status ≠ INPROGRESS) := by
  by_cases h0 : env.clamscanResult.returncode = 0
  · have hscan : scan w env b k dp defs tp v =
        (set_status { w with trace := w.trace ++ [Effect.run "clamscan"] } b k CLEAN v,
          .ok { source := "serverless-clamscan", input_bucket := b, input_key := k,
                status := CLEAN, message := env.clamscanResult.stdout, version_id := v }) := by
      simp [scan, h0]
    rw [hscan]
    refine ⟨fun _ => ⟨rfl, set_status_findTag _ b k CLEAN v⟩,
      fun h1 => absurd (h0.symm.trans h1) (by norm_num),
      fun hne _ => absurd h0 hne, ?_⟩
    intro s hs
    simp only [Except.ok.injEq] at hs
    refine ⟨Or.inl (by rw [← hs]), ?_, by rw [← hs]; simp [CLEAN, INPROGRESS]⟩
    rw [← hs]
    exact set_status_findTag _ b k CLEAN v
  · by_cases h1 : env.clamscanResult.returncode = 1
    · have hscan : scan w env b k dp defs tp v =
          (set_status { w with trace := w.trace ++ [Effect.run "clamscan"] } b k INFECTED v,
            .ok { source := "serverless-clamscan", input_bucket := b, input_key := k,
                  status := INFECTED, message := env.clamscanResult.stdout, version_id := v }) := by
        simp [scan, h0, h1]
      rw [hscan]
      refine ⟨fun h0c => absurd h0c h0, fun _ => ⟨rfl, set_status_findTag _ b k INFECTED v⟩,
        fun _ hne => absurd h1 hne, ?_⟩
      intro s hs
      simp only [Except.ok.injEq] at hs
      refine ⟨Or.inr (by rw [← hs]), ?_, by rw [← hs]; simp [INFECTED, INPROGRESS]⟩
      rw [← hs]
      exact set_status_findTag _ b k INFECTED v
    · have hscan : scan w env b k dp defs tp v =
          ((report_failure { w with trace := w.trace ++ [Effect.run "clamscan"] } b k dp
              (clamMsg env.clamscanResult.returncode env.clamscanResult.stdout) v).1,
            .error (report_failure { w with trace := w.trace ++ [Effect.run "clamscan"] } b k dp
              (clamMsg env.clamscanResult.returncode env.clamscanResult.stdout) v).2) := by
        simp [scan, h0, h1]
      rw [hscan]
      refine ⟨fun h0c => absurd h0c h0, fun h1c => absurd h1c h1,
        fun _ _ => ⟨report_failure_tag _ b k dp _ v, fun hdir => ?_⟩, ?_⟩
      · have hdir2 : fsDirExists
            ({ w with trace := w.trace ++ [Effect.run "clamscan"] } : World).fs dp = true := hdir
        rw [report_failure_err_of_dir hdir2]
      · intro s hs
        simp at hs

/-- Witness for C1 at exit code 2: the error record carries the engine
output and the tag is forced to ERROR. -/
theorem scan_exit_code_contract_witness :
    (envScanErr.clamscanResult.returncode ≠ 0 ∧ envScanErr.clamscanResult.returncode ≠ 1 ∧
      fsDirExists wW.fs "/m/r1" = true) ∧
    findTag (tagsOf (scan wW envScanErr "b" "f.txt" "/m/r1" "/m/d" "/m/r1-tmp" none).1
      ("b", "f.txt", none)) "scan-status" = some ERROR ∧
    (scan wW envScanErr "b" "f.txt" "/m/r1" "/m/d" "/m/r1-tmp" none).2 = .error (.failure
      { source := "serverless-clamscan", input_bucket := "b", input_key := "f.txt",
        status := ERROR, message := clamMsg 2 "boom", version_id := none }) := by
  have h := (scan_exit_code_contract wW envScanErr "b" "f.txt" "/m/r1" "/m/d" "/m/r1-tmp" none).2.2.1
    (by decide) (by decide)
  exact ⟨⟨by decide, by decide, by decide⟩, h.1, h.2 (by decide)⟩

/-- C10: in the failure reporter the ERROR tag write strictly precedes the
workspace purge and the raising of the structured record: the tag is ERROR
in the resulting store whatever the purge does; when the purge target does
not exist the purge exception, not the structured record, is what
propagates; when the purge succeeds the structured record is raised. -/
theorem report_failure_order_contract (w : World) (b k dp m : String) (v : Option String) :
    findTag (tagsOf (report_failure w b k dp m v).1 (b, k, v)) "scan-status" = some ERROR ∧
    (fsDirExists w.fs dp = false → (report_failure w b k dp m v).2 = .fileNotFound dp) ∧
    (fsDirExists w.fs dp = true → (report_failure w b k dp m v).2 = .failure
      { source := "serverless-clamscan", input_bucket := b, input_key := k,
        status := ERROR, message := m, version_id := v }) :=
  ⟨report_failure_tag w b k dp m v,
    fun h => report_failure_err_of_not_dir h,
    fun h => report_failure_err_of_dir h⟩

/-- Witness for C10 at a purge target that was never created: the tag is
still ERROR and the purge error propagates. -/
theorem report_failure_order_contract_witness :
    fsDirExists wW.fs "/m/nope" = false ∧
    findTag (tagsOf (report_failure wW "b" "f.txt" "/m/nope" "oops" (some "v1")).1
      ("b", "f.txt", some "v1")) "scan-status" = some ERROR ∧
    (report_failure wW "b" "f.txt" "/m/nope" "oops" (some "v1")).2 = .fileNotFound "/m/nope" := by
  have h := report_failure_order_contract wW "b" "f.txt" "/m/nope" "oops" (some "v1")
  exact ⟨by decide, h.1, h.2.1 (by decide)⟩

/-- C3: the definition updater is throttled: the refresh tool is invoked on
an invocation iff the elapsed time since the last successful refresh is at
least 3600 seconds; across two invocations sharing one cache whose times lie
less than the interval apart (the first refresh, if any, succeeding), the
tool runs at most once; and when the second invocation comes at or beyond
the interval from the cache timestamp, it runs again. -/
theorem freshclam_throttle_contract (w : World) (env1 env2 : Env) (b k dp defs : String) :
    (runCount (freshclam_update w env1 b k dp defs).1.trace "freshclam" =
        runCount w.trace "freshclam" + 1 ↔
      3600 ≤ env1.currentTime - w.lastUpdateTime) ∧
    (¬ 3600 ≤ env1.currentTime - w.lastUpdateTime →
      runCount (freshclam_update w env1 b k dp defs).1.trace "freshclam" =
        runCount w.trace "freshclam") ∧
    (env1.freshclamResult.returncode = 0 →
      env2.currentTime - env1.currentTime < 3600 →
      runCount (updater_seq b k dp defs w [env1, env2]).trace "freshclam" ≤
        runCount w.trace "freshclam" + 1) ∧
    (3600 ≤ env2.currentTime - (freshclam_update w env1 b k dp defs).1.lastUpdateTime →
      runCount (updater_seq b k dp defs w [env1, env2]).trace "freshclam" =
        runCount (freshclam_update w env1 b k dp defs).1.trace "freshclam" + 1) := by
  have hseq : updater_seq b k dp defs w [env1, env2] =
      (freshclam_update (freshclam_update w env1 b k dp defs).1 env2 b k dp defs).1 := rfl
  have h1 := freshclam_update_runCount w env1 b k dp defs
  have h2 := freshclam_update_runCount (freshclam_update w env1 b k dp defs).1 env2 b k dp defs
  have hl1 := freshclam_update_lastUpdateTime w env1 b k dp defs
  refine ⟨?_, ?_, ?_, ?_⟩
  · constructor
    · intro hcount
      by_contra hc
      rw [h1, if_neg hc] at hcount
      omega
    · intro hc
      rw [h1, if_pos hc]
  · intro hc
    rw [h1, if_neg hc, Nat.add_zero]
  · intro hrc helapsed
    rw [hseq, h2, h1]
    by_cases hc1 : 3600 ≤ env1.currentTime - w.lastUpdateTime
    · have hlast : (freshclam_update w env1 b k dp defs).1.lastUpdateTime = env1.currentTime := by
        rw [hl1, if_pos ⟨hc1, hrc⟩]
      have hc2 : ¬ 3600 ≤ env2.currentTime -
          (freshclam_update w env1 b k dp defs).1.lastUpdateTime := by
        rw [hlast]
        exact not_le.mpr helapsed
      rw [if_pos hc1, if_neg hc2]
    · rw [if_neg hc1]
      by_cases hc2 : 3600 ≤ env2.currentTime -
          (freshclam_update w env1 b k dp defs).1.lastUpdateTime
      · rw [if_pos hc2]
      · rw [if_neg hc2]
        omega
  · intro hc2
    rw [hseq, h2, if_pos hc2]

/-- Witness for C3: with a refresh at time 10000 succeeding, a second
invocation 100 seconds later does not run the tool again. -/
theorem freshclam_throttle_contract_witness :
    (envW.freshclamResult.returncode = 0 ∧ envT2.currentTime - envW.currentTime < 3600) ∧
    runCount (updater_seq "b" "f.txt" "/m/r1" "/m/d" wW [envW, envT2]).trace "freshclam" ≤
      runCount wW.trace "freshclam" + 1 := by
  refine ⟨⟨by decide, by norm_num [envW, envT2]⟩, ?_⟩
  exact (freshclam_throttle_contract wW envW envT2 "b" "f.txt" "/m/r1" "/m/d").2.2.1
    (by decide) (by norm_num [envW, envT2])

/-- C8: the definition-cache timestamp is monotonically non-decreasing
across every sequence of updater invocations, advances (to the invocation
current time) only on a refresh whose tool exit code was zero, and is left
exactly unchanged by a failed refresh. -/
theorem definition_cache_timestamp_contract (b k dp defs : String) :
    (∀ (w : World) (env : Env),
      w.lastUpdateTime ≤ (freshclam_update w env b k dp defs).1.lastUpdateTime) ∧
    (∀ (w : World) (envs : List Env),
      w.lastUpdateTime ≤ (updater_seq b k dp defs w envs).lastUpdateTime) ∧
    (∀ (w : World) (env : Env),
      (freshclam_update w env b k dp defs).1.lastUpdateTime ≠ w.lastUpdateTime →
      3600 ≤ env.currentTime - w.lastUpdateTime ∧ env.freshclamResult.returncode = 0 ∧
        (freshclam_update w env b k dp defs).1.lastUpdateTime = env.currentTime) ∧
    (∀ (w : World) (env : Env), env.freshclamResult.returncode ≠ 0 →
      (freshclam_update w env b k dp defs).1.lastUpdateTime = w.lastUpdateTime) := by
  have hmono : ∀ (w : World) (env : Env),
      w.lastUpdateTime ≤ (freshclam_update w env b k dp defs).1.lastUpdateTime := by
    intro w env
    rw [freshclam_update_lastUpdateTime]
    by_cases hc : 3600 ≤ env.currentTime - w.lastUpdateTime ∧ env.freshclamResult.returncode = 0
    · rw [if_pos hc]
      have := hc.1
      linarith
    · rw [if_neg hc]
  refine ⟨hmono, ?_, ?_, ?_⟩
  · intro w envs
    induction envs generalizing w with
    | nil => exact le_refl _
    | cons env rest ih =>
      exact le_trans (hmono w env) (ih (freshclam_update w env b k dp defs).1)
  · intro w env hne
    rw [freshclam_update_lastUpdateTime] at hne ⊢
    by_cases hc : 3600 ≤ env.currentTime - w.lastUpdateTime ∧ env.freshclamResult.returncode = 0
    · rw [if_pos hc]
      exact ⟨hc.1, hc.2, rfl⟩
    · rw [if_neg hc] at hne
      exact absurd rfl hne
  · intro w env hrc
    rw [freshclam_update_lastUpdateTime, if_neg]
    intro hc
    exact hrc hc.2

/-- Witness for C8: a failed refresh (exit 1) leaves the timestamp exactly
where it was. -/
theorem definition_cache_timestamp_contract_witness :
    envFreshErr.freshclamResult.returncode ≠ 0 ∧
    (freshclam_update wW envFreshErr "b" "f.txt" "/m/r1" "/m/d").1.lastUpdateTime =
      wW.lastUpdateTime := by
  refine ⟨by decide, ?_⟩
  exact (definition_cache_timestamp_contract "b" "f.txt" "/m/r1" "/m/d").2.2.2 wW envFreshErr
    (by decide)

/-- C6: the archive expander activates only for declared sizes above
MAX_BYTES; when it runs with the extraction tool succeeding (exit 0 or 1)
the original archive file is deleted, the walk succeeds exactly when no
member above MAX_BYTES remains, any oversized member triggers the fatal
FileTooBig failure listing the offending names, an extraction exit outside 0
and 1 triggers the fatal archive failure, and a declared size at most
MAX_BYTES leaves the state completely untouched. -/
theorem expand_archive_contract (w : World) (env : Env) (b k dp : String) (byte_size : Nat) :
    (byte_size ≤ MAX_BYTES → expand_if_large_archive w env b k dp byte_size = (w, .ok ())) ∧
    (MAX_BYTES < byte_size →
      runCount (expand_if_large_archive w env b k dp byte_size).1.trace "7za" =
        runCount w.trace "7za" + 1) ∧
    (MAX_BYTES < byte_size →
      (env.archiveResult.returncode = 0 ∨ env.archiveResult.returncode = 1) →
      fsFileExists (expand_if_large_archive w env b k dp byte_size).1.fs
          (dp ++ "/" ++ k) = false ∧
      ((expand_if_large_archive w env b k dp byte_size).2 = .ok () ↔
        oversizedNames w env dp k = []) ∧
      (oversizedNames w env dp k ≠ [] → fsDirExists w.fs dp = true →
        (expand_if_large_archive w env b k dp byte_size).2 = .error (.failure
          { source := "serverless-clamscan", input_bucket := b, input_key := k,
            status := ERROR, message := tooBigMsg k (oversizedNames w env dp k),
            version_id := none }))) ∧
    (MAX_BYTES < byte_size →
      ¬ (env.archiveResult.returncode = 0 ∨ env.archiveResult.returncode = 1) →
      fsDirExists w.fs dp = true →
      (expand_if_large_archive w env b k dp byte_size).2 = .error (.failure
        { source := "serverless-clamscan", input_bucket := b, input_key := k,
          status := ERROR, message := archiveMsg env.archiveResult.returncode,
          version_id := none })) ∧
    (oversizedNames w env dp k = [] ↔
      ∀ f ∈ (fsRemoveFile (expandedFS w env dp) (dp ++ "/" ++ k)).files,
        underDir dp f.1 = true → f.2 ≤ MAX_BYTES) := by
  by_cases hbig : MAX_BYTES < byte_size
  · by_cases hrc : env.archiveResult.returncode = 0 ∨ env.archiveResult.returncode = 1
    · by_cases hnil : oversizedNames w env dp k = []
      · have hstep : expand_if_large_archive w env b k dp byte_size =
            ({ w with
                fs := fsRemoveFile (expandedFS w env dp) (dp ++ "/" ++ k)
                trace := w.trace ++ [Effect.run "7za"] }, .ok ()) := by
          have hnil2 : walkLarge (fsRemoveFile (expandedFS w env dp) (dp ++ "/" ++ k)) dp =
              [] := hnil
          simp only [expandedFS] at hnil2
          simp [expand_if_large_archive, hbig, hrc, delete_some, expandedFS, hnil2]
        refine ⟨fun hsm => absurd hbig (Nat.not_lt.mpr hsm), fun _ => ?_, fun _ _ => ?_,
          fun _ hrc2 => absurd hrc hrc2, walkLarge_eq_nil_iff _ _⟩
        · rw [hstep]
          show runCount (w.trace ++ [Effect.run "7za"]) "7za" = _
          rw [runCount_append]
          simp [runCount]
        · refine ⟨?_, ?_, fun hne _ => absurd hnil hne⟩
          · rw [hstep]
            exact fsFileExists_fsRemoveFile _ _
          · rw [hstep]
            simp [hnil]
      · have hne : (oversizedNames w env dp k).isEmpty = false := by
          cases ho : oversizedNames w env dp k with
          | nil => exact absurd ho hnil
          | cons hd tl => rfl
        have hstep : expand_if_large_archive w env b k dp byte_size =
            ((report_failure
                { w with
                    fs := fsRemoveFile (expandedFS w env dp) (dp ++ "/" ++ k)
                    trace := w.trace ++ [Effect.run "7za"] }
                b k dp (tooBigMsg k (oversizedNames w env dp k))).1,
              .error (report_failure
                { w with
                    fs := fsRemoveFile (expandedFS w env dp) (dp ++ "/" ++ k)
                    trace := w.trace ++ [Effect.run "7za"] }
                b k dp (tooBigMsg k (oversizedNames w env dp k))).2) := by
          have hne2 : (walkLarge (fsRemoveFile (expandedFS w env dp) (dp ++ "/" ++ k))
              dp).isEmpty = false := hne
          simp only [expandedFS] at hne2
          simp [expand_if_large_archive, hbig, hrc, delete_some, oversizedNames, expandedFS,
            hne2]
        refine ⟨fun hsm => absurd hbig (Nat.not_lt.mpr hsm), fun _ => ?_, fun _ _ => ?_,
          fun _ hrc2 => absurd hrc hrc2, walkLarge_eq_nil_iff _ _⟩
        · rw [hstep]
          show runCount (report_failure _ b k dp _).1.trace "7za" = _
          rw [report_failure_runCount]
          show runCount (w.trace ++ [Effect.run "7za"]) "7za" = _
          rw [runCount_append]
          simp [runCount]
        · refine ⟨?_, ?_, fun _ hdir => ?_⟩
          · rw [hstep]
            exact report_failure_fileExists_false (fsFileExists_fsRemoveFile _ _) b k dp _ none
          · rw [hstep]
            simp [hnil]
          · have hdir2 : fsDirExists
                ({ w with
                    fs := fsRemoveFile (expandedFS w env dp) (dp ++ "/" ++ k)
                    trace := w.trace ++ [Effect.run "7za"] } : World).fs dp = true := by
              show fsDirExists (fsRemoveFile (expandedFS w env dp) (dp ++ "/" ++ k)) dp = true
              rw [fsDirExists_congr (show (fsRemoveFile (expandedFS w env dp)
                (dp ++ "/" ++ k)).dirs = w.fs.dirs from expandedFS_dirs w env dp) dp]
              exact hdir
            rw [hstep]
            show Except.error (report_failure
                { w with
                    fs := fsRemoveFile (expandedFS w env dp) (dp ++ "/" ++ k)
                    trace := w.trace ++ [Effect.run "7za"] }
                b k dp (tooBigMsg k (oversizedNames w env dp k))).2 = _
            rw [report_failure_err_of_dir hdir2]
    · have hstep : expand_if_large_archive w env b k dp byte_size =
          ((report_failure
              { w with
                  fs := expandedFS w env dp
                  trace := w.trace ++ [Effect.run "7za"] }
              b k dp (archiveMsg env.archiveResult.returncode)).1,
            .error (report_failure
              { w with
                  fs := expandedFS w env dp
                  trace := w.trace ++ [Effect.run "7za"] }
              b k dp (archiveMsg env.archiveResult.returncode)).2) := by
        simp [expand_if_large_archive, hbig, hrc, expandedFS]
      refine ⟨fun hsm => absurd hbig (Nat.not_lt.mpr hsm), fun _ => ?_,
        fun _ hrc2 => absurd hrc2 hrc, fun _ _ hdir => ?_, walkLarge_eq_nil_iff _ _⟩
      · rw [hstep]
        show runCount (report_failure _ b k dp _).1.trace "7za" = _
        rw [report_failure_runCount]
        show runCount (w.trace ++ [Effect.run "7za"]) "7za" = _
        rw [runCount_append]
        simp [runCount]
      · have hdir2 : fsDirExists
            ({ w with
                fs := expandedFS w env dp
                trace := w.trace ++ [Effect.run "7za"] } : World).fs dp = true := by
          show fsDirExists (expandedFS w env dp) dp = true
          rw [fsDirExists_congr (expandedFS_dirs w env dp) dp]
          exact hdir
        rw [hstep]
        show Except.error (report_failure
            { w with
                fs := expandedFS w env dp
                trace := w.trace ++ [Effect.run "7za"] }
            b k dp (archiveMsg env.archiveResult.returncode)).2 = _
        rw [report_failure_err_of_dir hdir2]
  · refine ⟨fun _ => by simp [expand_if_large_archive, hbig], fun hb => absurd hb hbig,
      fun hb => absurd hb hbig, fun hb => absurd hb hbig, walkLarge_eq_nil_iff _ _⟩

/-- Witness for C6: a declared 4000000005-byte archive expanding to one
4000000001-byte member fails with the FileTooBig record naming it, and the
original archive file is gone. -/
theorem expand_archive_contract_witness :
    (MAX_BYTES < 4000000005 ∧
      (envBigMember.archiveResult.returncode = 0 ∨ envBigMember.archiveResult.returncode = 1) ∧
      oversizedNames wV envBigMember "/m/r1" "f.txt" ≠ [] ∧
      fsDirExists wV.fs "/m/r1" = false ∧
      fsDirExists { dirs := ["/m", "/m/r1"], files := [] : FS } "/m/r1" = true) ∧
    fsFileExists
      (expand_if_large_archive
        { wV with fs := { dirs := ["/m", "/m/r1"], files := [] } }
        envBigMember "b" "f.txt" "/m/r1" 4000000005).1.fs "/m/r1/f.txt" = false ∧
    (expand_if_large_archive
        { wV with fs := { dirs := ["/m", "/m/r1"], files := [] } }
        envBigMember "b" "f.txt" "/m/r1" 4000000005).2 = .error (.failure
      { source := "serverless-clamscan", input_bucket := "b", input_key := "f.txt",
        status := ERROR,
        message := tooBigMsg "f.txt"
          (oversizedNames { wV with fs := { dirs := ["/m", "/m/r1"], files := [] } }
            envBigMember "/m/r1" "f.txt"),
        version_id := none }) := by
  have h := (expand_archive_contract
    { wV with fs := { dirs := ["/m", "/m/r1"], files := [] } }
    envBigMember "b" "f.txt" "/m/r1" 4000000005).2.2.1 (by decide) (by decide)
  exact ⟨⟨by decide, by decide, by decide, by decide, by decide⟩,
    h.1, h.2.2 (by decide) (by decide)⟩

/-- C7: guard short-circuits.  A key ending in the path separator returns the
SKIP summary with the state completely untouched (no fetch, no scan, no tag
write, not even a tag read).  Otherwise, when the current scan-status tag is
SKIP, or when the object is absent at read time (the not-found error being
mapped to the synthesized DELETED status rather than propagated), the
corresponding summary is returned and the only effect of the invocation is
the single tag read. -/
theorem guard_short_circuit (cfg : Config) (env : Env) (w : World) (event : Event) :
    (strEndsWith event.key "/" = true →
      lambda_handler cfg env w event = (w, .ok
        { source := "serverless-clamscan", input_bucket := event.bucket,
          input_key := event.key, status := SKIP,
          message := "S3 Event trigger was for a non-file object",
          version_id := normVersion event.versionId })) ∧
    (∀ ts, strEndsWith event.key "/" = false →
      s3Get w.s3 (event.bucket, event.key, normVersion event.versionId) = .present ts →
      findTag ts "scan-status" = some SKIP →
      lambda_handler cfg env w event =
        ({ w with trace := w.trace ++
            [Effect.tagRead event.bucket event.key (normVersion event.versionId)] }, .ok
          { source := "serverless-clamscan", input_bucket := event.bucket,
            input_key := event.key, status := SKIP,
            message := "S3 Event trigger was for a file already marked to skip",
            version_id := normVersion event.versionId })) ∧
    (strEndsWith event.key "/" = false →
      s3Get w.s3 (event.bucket, event.key, normVersion event.versionId) = .absent →
      lambda_handler cfg env w event =
        ({ w with trace := w.trace ++
            [Effect.tagRead event.bucket event.key (normVersion event.versionId)] }, .ok
          { source := "serverless-clamscan", input_bucket := event.bucket,
            input_key := event.key, status := DELETED,
            message := "S3 Event trigger was for a file that has been deleted",
            version_id := normVersion event.versionId })) := by
  refine ⟨fun hkey => ?_, fun ts hkey hst htag => ?_, fun hkey hst => ?_⟩
  · simp [lambda_handler, hkey]
  · simp [lambda_handler, get_status, get_tag_value, get_object_tagging, hkey, hst, htag,
      SKIP]
  · simp [lambda_handler, get_status, get_tag_value, get_object_tagging, hkey, hst, SKIP,
      DELETED]

/-- Witness for C7: a SKIP-tagged object short-circuits with only the tag
read recorded. -/
theorem guard_short_circuit_witness :
    (strEndsWith evW.key "/" = false ∧
      s3Get wSkip.s3 ("b", "f.txt", none) =
        .present [{ key := "scan-status", value := "N/A" }] ∧
      findTag [{ key := "scan-status", value := "N/A" }] "scan-status" = some SKIP) ∧
    lambda_handler cfgW envW wSkip evW =
      ({ wSkip with trace := [Effect.tagRead "b" "f.txt" none] }, .ok
        { source := "serverless-clamscan", input_bucket := "b", input_key := "f.txt",
          status := SKIP,
          message := "S3 Event trigger was for a file already marked to skip",
          version_id := none }) := by
  refine ⟨⟨by decide, by decide, by decide⟩, ?_⟩
  exact (guard_short_circuit cfgW envW wSkip evW).2.1
    [{ key := "scan-status", value := "N/A" }] (by decide) (by decide) (by decide)

/-- C9: an event whose object versionId equals the literal "null" behaves
exactly as if no version identifier were present: the whole invocation
(resulting state and result) coincides with the unversioned one, every tag
read, tag write and fetch it performs is unscoped, and the output record
carries no version_id key. -/
theorem null_version_unversioned (cfg : Config) (env : Env) (w : World) (e : Event) :
    lambda_handler cfg env w { e with versionId := some "null" } =
      lambda_handler cfg env w { e with versionId := none } ∧
    (∀ s, (lambda_handler cfg env w { e with versionId := some "null" }).2 = .ok s →
      s.version_id = none) ∧
    ExtendsUnversioned w (lambda_handler cfg env w { e with versionId := some "null" }).1 := by
  have hv : normVersion ({ e with versionId := some "null" } : Event).versionId = none := rfl
  exact ⟨rfl, handler_ok_version_none cfg env w _ hv, handler_extendsUnversioned cfg env w _ hv⟩

/-- Witness for C9: the versioned-as-null event runs identically to the
unversioned one and yields a CLEAN summary without a version_id key. -/
theorem null_version_unversioned_witness :
    (lambda_handler cfgW envW wW { evW with versionId := some "null" }).2 =
      .ok { source := "serverless-clamscan", input_bucket := "b", input_key := "f.txt",
            status := CLEAN, message := "ok", version_id := none } ∧
    ({ source := "serverless-clamscan", input_bucket := "b", input_key := "f.txt",
       status := CLEAN, message := "ok", version_id := none : Summary }).version_id = none := by
  have h := (null_version_unversioned cfgW envW wW evW).2.1
    { source := "serverless-clamscan", input_bucket := "b", input_key := "f.txt",
      status := CLEAN, message := "ok", version_id := none }
  exact ⟨by rfl, h (by rfl)⟩

/-- C4 (counterexample to the claim as stated): two past-guard invocations
violate the claimed destruction of both workspace directories on every exit
path.  First, an invocation that fails in the scan stage leaves the temp
directory in place: the failure reporter purges only the payload directory.
Second, an invocation whose temp-directory creation fails leaves even the
payload directory in place: create_dir hands the reporter its own failing
target, whose purge raises FileNotFoundError before anything else is
removed. -/
theorem workspace_cleanup_counterexample :
    ((lambda_handler cfgW envScanErr wV evV).2 = .error (.failure
      { source := "serverless-clamscan", input_bucket := "b", input_key := "f.txt",
        status := ERROR, message := clamMsg 2 "boom", version_id := some "v1" }) ∧
    fsDirExists (lambda_handler cfgW envScanErr wV evV).1.fs
      (cfgW.mountPath ++ "/" ++ cfgW.requestId) = false ∧
    fsDirExists (lambda_handler cfgW envScanErr wV evV).1.fs
      (cfgW.mountPath ++ "/" ++ cfgW.requestId ++ "-tmp") = true) ∧
    ((lambda_handler cfgW envMkdirErr wV evV).2 =
      .error (.fileNotFound (cfgW.mountPath ++ "/" ++ cfgW.requestId ++ "-tmp")) ∧
    fsDirExists (lambda_handler cfgW envMkdirErr wV evV).1.fs
      (cfgW.mountPath ++ "/" ++ cfgW.requestId) = true) := by
  exact ⟨⟨by rfl, by rfl, by rfl⟩, ⟨by rfl, by rfl⟩⟩

/-- C4 (amended): when every directory creation of the invocation succeeds,
after any invocation that proceeds past the guard stage the payload
directory no longer exists, whether the invocation returns or raises, and
the temp directory no longer exists whenever the invocation returns
successfully.  Nothing more holds on the other paths: a stage failure
purges the payload directory alone and leaves the temp directory, and a
directory-creation failure purges only its own failing target, so even the
payload directory can survive (both shown by the counterexample runs). -/
theorem workspace_cleanup_amended (cfg : Config) (env : Env) (w : World) (event : Event)
    (hkey : strEndsWith event.key "/" = false)
    (hskip : (get_status w event.bucket event.key (normVersion event.versionId)).2 ≠
      some SKIP)
    (hdel : (get_status w event.bucket event.key (normVersion event.versionId)).2 ≠
      some DELETED)
    (hmk : ∀ p, env.mkdirError p = none) :
    fsDirExists (lambda_handler cfg env w event).1.fs
      (cfg.mountPath ++ "/" ++ cfg.requestId) = false ∧
    (∀ s, (lambda_handler cfg env w event).2 = .ok s →
      fsDirExists (lambda_handler cfg env w event).1.fs
        (cfg.mountPath ++ "/" ++ cfg.requestId ++ "-tmp") = false) := by
  unfold lambda_handler
  dsimp only
  simp only [hkey, Bool.false_eq_true, if_false]
  rw [if_neg hskip, if_neg hdel]
  split
  next w1 err heq =>
    exact absurd (by rw [heq] : (create_dir _ env event.bucket event.key
      (cfg.mountPath ++ "/" ++ cfg.requestId)).2 = .error err)
      (by rw [create_dir_ok hmk]; simp)
  next w1 heq =>
    split
    next w2 err heq2 =>
      exact absurd (by rw [heq2] : (create_dir w1 env event.bucket event.key
        (cfg.mountPath ++ "/" ++ cfg.requestId ++ "-tmp")).2 = .error err)
        (by rw [create_dir_ok hmk]; simp)
    next w2 heq2 =>
      split
      next w3 err heq3 =>
        refine ⟨?_, fun s hs => Except.noConfusion hs⟩
        have h1 : (download_object w2 env event.bucket event.key
            (cfg.mountPath ++ "/" ++ cfg.requestId) (normVersion event.versionId)).2 =
            .error err := by rw [heq3]
        have h2 := download_object_error_dirs _ _ _ _ _ _ _ h1
        rw [heq3] at h2
        exact h2
      next w3 heq3 =>
        split
        next w4 err heq4 =>
          refine ⟨?_, fun s hs => Except.noConfusion hs⟩
          have h1 : (expand_if_large_archive w3 env event.bucket event.key
              (cfg.mountPath ++ "/" ++ cfg.requestId) event.size).2 = .error err := by
            rw [heq4]
          have h2 := expand_error_dirs _ _ _ _ _ _ _ h1
          rw [heq4] at h2
          exact h2
        next w4 heq4 =>
          split
          next w5 err heq5 =>
            exact absurd (by rw [heq5] : (create_dir w4 env event.bucket event.key
              (cfg.mountPath ++ "/" ++ cfg.defPath)).2 = .error err)
              (by rw [create_dir_ok hmk]; simp)
          next w5 heq5 =>
            split
            next w6 err heq6 =>
              refine ⟨?_, fun s hs => Except.noConfusion hs⟩
              have h1 : (freshclam_update w5 env event.bucket event.key
                  (cfg.mountPath ++ "/" ++ cfg.requestId)
                  (cfg.mountPath ++ "/" ++ cfg.defPath)).2 = .error err := by rw [heq6]
              have h2 := freshclam_error_dirs _ _ _ _ _ _ _ h1
              rw [heq6] at h2
              exact h2
            next w6 heq6 =>
              split
              next w7 err heq7 =>
                refine ⟨?_, fun s hs => Except.noConfusion hs⟩
                have h1 : (scan w6 env event.bucket event.key
                    (cfg.mountPath ++ "/" ++ cfg.requestId)
                    (cfg.mountPath ++ "/" ++ cfg.defPath)
                    (cfg.mountPath ++ "/" ++ cfg.requestId ++ "-tmp")
                    (normVersion event.versionId)).2 = .error err := by rw [heq7]
                have h2 := scan_error_dirs _ _ _ _ _ _ _ _ _ h1
                rw [heq7] at h2
                exact h2
              next w7 summary heq7 =>
                split
                next w8 err heq8 =>
                  refine ⟨?_, fun s hs => Except.noConfusion hs⟩
                  have h2 := delete_dp_gone w7 (cfg.mountPath ++ "/" ++ cfg.requestId)
                  rw [heq8] at h2
                  exact h2
                next w8 heq8 =>
                  have hgone : fsDirExists w8.fs
                      (cfg.mountPath ++ "/" ++ cfg.requestId) = false := by
                    have h2 := delete_dp_gone w7 (cfg.mountPath ++ "/" ++ cfg.requestId)
                    rw [heq8] at h2
                    exact h2
                  split
                  next w9 err heq9 =>
                    refine ⟨?_, fun s hs => Except.noConfusion hs⟩
                    have h2 := delete_preserves_dir_gone hgone
                      (cfg.mountPath ++ "/" ++ cfg.requestId ++ "-tmp")
                    rw [heq9] at h2
                    exact h2
                  next w9 heq9 =>
                    refine ⟨?_, fun s hs => ?_⟩
                    · have h2 := delete_preserves_dir_gone hgone
                        (cfg.mountPath ++ "/" ++ cfg.requestId ++ "-tmp")
                      rw [heq9] at h2
                      exact h2
                    · have h2 := delete_dp_gone w8
                        (cfg.mountPath ++ "/" ++ cfg.requestId ++ "-tmp")
                      rw [heq9] at h2
                      exact h2

/-- Witness for C4 (amended): the scan-failure run purges the payload
directory even though it raises. -/
theorem workspace_cleanup_amended_witness :
    (strEndsWith evV.key "/" = false ∧
      (get_status wV "b" "f.txt" (some "v1")).2 ≠ some SKIP ∧
      (get_status wV "b" "f.txt" (some "v1")).2 ≠ some DELETED) ∧
    fsDirExists (lambda_handler cfgW envScanErr wV evV).1.fs
      (cfgW.mountPath ++ "/" ++ cfgW.requestId) = false := by
  refine ⟨⟨by decide, by decide, by decide⟩, ?_⟩
  exact (workspace_cleanup_amended cfgW envScanErr wV evV (by decide) (by decide)
    (by decide) (fun p => rfl)).1

/-- C5 (counterexample to the claim as stated): an event carrying version
identifier v1 whose archive-expansion stage fails produces a failure record
without the version identifier, because expand_if_large_archive calls the
failure reporter without passing it. -/
theorem failure_version_counterexample :
    evBig.versionId = some "v1" ∧
    (lambda_handler cfgW envBigMember wV evBig).2 = .error (.failure
      { source := "serverless-clamscan", input_bucket := "b", input_key := "f.txt",
        status := ERROR, message := tooBigMsg "f.txt" ["big.bin"],
        version_id := none }) := by
  exact ⟨rfl, by rfl⟩

/-- C5 (amended): only fetch- and scan-stage failures carry the version
identifier into the failure record (and the version-scoped ERROR write);
archive-expansion and definition-update failures invoke the reporter without
it, so every failure record they produce has no version_id and their ERROR
write is unversioned. -/
theorem failure_version_scoping_amended :
    (∀ (w : World) (env : Env) (b k dp m : String) (v : Option String),
      env.downloadError = some m → fsDirExists w.fs dp = true →
      (download_object w env b k dp v).2 = .error (.failure
        { source := "serverless-clamscan", input_bucket := b, input_key := k,
          status := ERROR, message := m, version_id := v })) ∧
    (∀ (w : World) (env : Env) (b k dp defs tp : String) (v : Option String),
      env.clamscanResult.returncode ≠ 0 → env.clamscanResult.returncode ≠ 1 →
      fsDirExists w.fs dp = true →
      (scan w env b k dp defs tp v).2 = .error (.failure
        { source := "serverless-clamscan", input_bucket := b, input_key := k,
          status := ERROR,
          message := clamMsg env.clamscanResult.returncode env.clamscanResult.stdout,
          version_id := v })) ∧
    (∀ (w : World) (env : Env) (b k dp : String) (byte_size : Nat) (r : FailureRecord),
      (expand_if_large_archive w env b k dp byte_size).2 = .error (.failure r) →
      r.version_id = none) ∧
    (∀ (w : World) (env : Env) (b k dp defs : String) (r : FailureRecord),
      (freshclam_update w env b k dp defs).2 = .error (.failure r) →
      r.version_id = none) := by
  refine ⟨?_, ?_, ?_, ?_⟩
  · intro w env b k dp m v hdl hdir
    unfold download_object
    simp only [hdl]
    show Except.error (report_failure
        { w with trace := w.trace ++ [Effect.fetch b k v] } b k dp m v).2 = _
    have hdir2 : fsDirExists
        ({ w with trace := w.trace ++ [Effect.fetch b k v] } : World).fs dp = true := hdir
    rw [report_failure_err_of_dir hdir2]
  · intro w env b k dp defs tp v h0 h1 hdir
    have h := (scan_exit_code_contract w env b k dp defs tp v).2.2.1 h0 h1
    exact h.2 hdir
  · intro w env b k dp byte_size r h
    unfold expand_if_large_archive at h
    by_cases hbig : MAX_BYTES < byte_size
    · simp only [hbig, if_true] at h
      by_cases hrc : env.archiveResult.returncode = 0 ∨ env.archiveResult.returncode = 1
      · simp only [hrc, if_true] at h
        split at h
        · simp at h
        · injection h with h2
          exact report_failure_version_none h2
      · simp only [hrc, if_false] at h
        injection h with h2
        exact report_failure_version_none h2
    · simp [hbig] at h
  · intro w env b k dp defs r h
    unfold freshclam_update at h
    by_cases hc : 3600 ≤ env.currentTime - w.lastUpdateTime
    · simp only [hc, if_true] at h
      by_cases hrc : env.freshclamResult.returncode = 0
      · simp [hrc] at h
      · simp only [hrc, if_false] at h
        injection h with h2
        exact report_failure_version_none h2
    · simp [hc] at h

/-- Witness for C5 (amended): the expansion-stage failure record of the
counterexample run carries no version identifier. -/
theorem failure_version_scoping_amended_witness :
    (expand_if_large_archive
        { wV with fs := { dirs := ["/m", "/m/r1"], files := [] } }
        envBigMember "b" "f.txt" "/m/r1" 4000000005).2 = .error (.failure
      { source := "serverless-clamscan", input_bucket := "b", input_key := "f.txt",
        status := ERROR, message := tooBigMsg "f.txt" ["big.bin"], version_id := none }) ∧
    ({ source := "serverless-clamscan", input_bucket := "b", input_key := "f.txt",
       status := ERROR, message := tooBigMsg "f.txt" ["big.bin"],
       version_id := none : FailureRecord }).version_id = none := by
  refine ⟨by rfl, ?_⟩
  exact (failure_version_scoping_amended).2.2.1
    { wV with fs := { dirs := ["/m", "/m/r1"], files := [] } }
    envBigMember "b" "f.txt" "/m/r1" 4000000005 _ (by rfl)

/-- Witness for C2: an object carrying an unrelated owner tag keeps it after
the scan-status write. -/
theorem set_status_idempotent_merge_witness :
    ((tagsOf wW ("b", "f.txt", none)).map Tag.key).Nodup ∧
    ({ key := "owner", value := "alice" : Tag } ∈
      tagsOf (set_status wW "b" "f.txt" CLEAN none) ("b", "f.txt", none)) := by
  refine ⟨by decide, ?_⟩
  exact (set_status_idempotent_merge wW "b" "f.txt" CLEAN none).2.2.2 (by decide)
    { key := "owner", value := "alice" } (by decide) (by decide)

end ClamScan
